import Mathlib

/-
Verification of the Seamly2D dependency-extraction script
(src/seamlyDependencies.py) against its specification.

Shallow embedding conventions:
- a Python value that is either a string or None is modelled as `Val := Option String`
  (`none` models Python's `None`);
- a Python dict with string keys is modelled as an association list in insertion
  order (`dictGet` / `dictSet` / `dictPop` mirror `d.get`, `d[k] = v`, `d.pop`);
- the global `objects_by_type` (a `defaultdict(dict)` from tag to id-to-record
  dict) is modelled as `Registry`; tag and id keys are `Val` because the script
  sometimes uses attribute values that can be `None` as keys;
- an XML element has string-valued attributes and ordered children;
- a fatal event (an `exit()` call, or an uncaught Python exception such as the
  `UnboundLocalError` in `lookup_name_by_id`) is modelled by an `Option` result
  being `none`.
-/

/-- A Python string-or-None value. -/
abbrev Val := Option String

/-- Python string conversion as used in f-strings: `None` prints as "None". -/
def pyStr (v : Val) : String :=
  match v with
  | some s => s
  | none => "None"

/-- Python truthiness of a string-or-None value: `None` and `""` are falsy. -/
def truthy (v : Val) : Bool :=
  match v with
  | some s => !(s == "")
  | none => false

/-- Lookup in a Python dict (first matching key; keys are unique in real dicts). -/
def dictGet {K V : Type} [DecidableEq K] (d : List (K × V)) (k : K) : Option V :=
  match d with
  | [] => none
  | (k', v) :: rest => if k' = k then some v else dictGet rest k

/-- Embedding of `d[k] = v` on a Python dict: replace in place, or append a new key. -/
def dictSet {K V : Type} [DecidableEq K] (d : List (K × V)) (k : K) (v : V) : List (K × V) :=
  match d with
  | [] => [(k, v)]
  | (k', v') :: rest => if k' = k then (k', v) :: rest else (k', v') :: dictSet rest k v

/-- Embedding of `d.pop(k, None)` on a Python dict: remove the key if present. -/
def dictPop {K V : Type} [DecidableEq K] (d : List (K × V)) (k : K) : List (K × V) :=
  d.filter (fun kv => decide (¬ kv.1 = k))

/-- A registry record / constructed element: a Python dict with `Val` values
(the script stores possibly-`None` values such as a missing suffix). -/
abbrev Rec := List (String × Val)

/-- The `objects_by_type` structure: tag key to (id key to record). -/
abbrev Registry := List (Val × List (Val × Rec))

/-- An XML element: tag, attribute map (strings), ordered children. -/
structure Elem where
  tag : String
  attrs : List (String × String)
  children : List Elem

/-- Embedding of `element.attrib.get(k)`. -/
def elemAttr (element : Elem) (k : String) : Val :=
  dictGet element.attrs k

/-- The `object_tags` list of the script, copied verbatim (including the
duplicated 'line' entry). -/
def object_tags : List String :=
  ["root", "measurements", "m", "variables", "variable", "draftBlock", "calculation",
   "point", "line", "spline", "arc", "elArc", "operation", "rotation", "path", "nodes",
   "node", "pieces", "piece", "data", "line", "patternInfo", "grainline", "iPaths",
   "iPath", "record", "anchors", "group", "item"]

/-- The `display_attributes` list of the script, copied verbatim. -/
def display_attributes : List String :=
  ["implicit", "description", "mx", "my", "x", "y", "lineColor", "lineType",
   "lineWeight", "showPointName", "penStyle", "alias", "color", "crossPoint"]

/-- The `id_attributes` list of the script, copied verbatim. -/
def id_attributes : List String :=
  ["basePoint", "block", "center", "center1", "center2", "c1Center", "c2Center",
   "curve", "point1", "point2", "point3", "point4", "firstPoint", "secondPoint",
   "thirdPoint", "p1Line", "p2Line", "p1Line1", "p2Line1", "p1Line2", "p2Line2", "op"]

/-- The `formula_attributes` list of the script, copied verbatim. -/
def formula_attributes : List String :=
  ["angle", "angle1", "angle2", "center", "center1", "center2", "c1Radius", "c2Radius",
   "formula", "length", "length1", "length2", "radius", "radius1", "radius2",
   "rotation", "width"]

/-- Embedding of `objects_by_type[tag]` under defaultdict semantics: a missing tag is empty. -/
def getTagMap (reg : Registry) (tag : Val) : List (Val × Rec) :=
  (dictGet reg tag).getD []

/-- Lookup of a single record: `objects_by_type[tag][id]` (None when absent). -/
def regGet (reg : Registry) (tag : Val) (id : Val) : Option Rec :=
  dictGet (getTagMap reg tag) id

/-- The `name` entry of the record registered under `tag`/`id`.
The outer Option is presence of the record, the inner `Val` is the stored
possibly-`None` name (Python `record.get('name')`). -/
def registered_name (reg : Registry) (tag : Val) (id : Val) : Option Val :=
  (regGet reg tag id).map (fun rc => (dictGet rc "name").join)

/-- The record stored by `add_to_objects_by_type`: the element's attributes with
`display_attributes` keys removed, then `'name'` set to the given name
(lines 206-208 of the script). -/
def add_rec (element_attrs : Rec) (name : Val) : Rec :=
  dictSet (element_attrs.filter (fun kv => decide (¬ kv.1 ∈ display_attributes))) "name" name

/-- Embedding of `add_to_objects_by_type(obj_tag, obj_id, element, name, objects_by_type)`. -/
def add_to_objects_by_type (obj_tag : Val) (obj_id : Val) (element_attrs : Rec)
    (name : Val) (reg : Registry) : Registry :=
  dictSet reg obj_tag (dictSet (getTagMap reg obj_tag) obj_id (add_rec element_attrs name))

/-- Embedding of `create_filtered_element(element, obj_id, name)` (lines 211-233): a fresh
attribute dict with `id` and `name` set, then every non-display attribute of the
original element copied over in order. -/
def create_filtered_element (element : Elem) (obj_id : Val) (name : Val) : Rec :=
  element.attrs.foldl
    (fun d kv => if kv.1 ∈ display_attributes then d else dictSet d kv.1 (some kv.2))
    [("id", obj_id), ("name", name)]

/-- Embedding of `lookup_name_by_id(object_id, objects_by_type)` (lines 172-192). The loop
scans `object_tags` in order and breaks at the first tag whose id-map contains
the id. When no tag contains the id the loop leaves `obj_tag` bound to the last
tag (never `None`), so the `obj_tag is None` fallback branch is dead and the
`return` raises `UnboundLocalError` on the never-assigned `obj_name`; that crash
is modelled as `none`. -/
def lookup_name_by_id (object_id : Val) (reg : Registry) : Option (String × Val) :=
  match object_tags.find? (fun t => (regGet reg (some t) object_id).isSome) with
  | some t => (regGet reg (some t) object_id).map (fun item => (t, (dictGet item "name").join))
  | none => none

/-- Embedding of `categorize_line(element, objects_by_type)` (lines 235-285). The name is
`Line_<first>_<second>` when both endpoint attributes are truthy and resolve to
truthy point names, else the fallback `line<id>`. The resolution loop uses
`if point_id == first_point_id: ... elif point_id == second_point_id: ...`, so
when the two endpoint ids are equal the second name is never assigned. -/
def categorize_line (element : Elem) (reg : Registry) : Registry :=
  let obj_id := elemAttr element "id"
  let first_point_id := elemAttr element "firstPoint"
  let second_point_id := elemAttr element "secondPoint"
  let name :=
    if truthy first_point_id && truthy second_point_id then
      let pts := getTagMap reg (some "point")
      let first_point_name : Val :=
        (dictGet pts first_point_id).bind (fun r => (dictGet r "name").join)
      let second_point_name : Val :=
        if first_point_id = second_point_id then none
        else (dictGet pts second_point_id).bind (fun r => (dictGet r "name").join)
      if truthy first_point_name && truthy second_point_name then
        "Line_" ++ pyStr first_point_name ++ "_" ++ pyStr second_point_name
      else
        "line" ++ pyStr obj_id
    else
      "line" ++ pyStr obj_id
  let new_element := create_filtered_element element obj_id (some name)
  add_to_objects_by_type (some element.tag) obj_id new_element (some name) reg

/-- The body of `process_intersectXY_alongLinepoint` after the line-id stem has
been chosen (lines 306-346): resolve the two point references and synthesize the
two implicit lines. An unresolvable reference crashes inside
`lookup_name_by_id` (`none`). -/
def intersect_with_stem (element : Elem) (obj_id obj_name : Val) (reg : Registry)
    (stem : String) : Option Registry :=
  let first_point_id := elemAttr element "firstPoint"
  let second_point_id := elemAttr element "secondPoint"
  if truthy first_point_id && truthy second_point_id then
    match lookup_name_by_id first_point_id reg, lookup_name_by_id second_point_id reg with
    | some (_, first_point_name), some (_, second_point_name) =>
      if truthy first_point_name && truthy second_point_name then
        let line_id_1 := stem ++ "1"
        let line_id_2 := stem ++ "2"
        let line_name_1 := "Line_" ++ pyStr first_point_name ++ "_" ++ pyStr obj_name
        let line_name_2 := "Line_" ++ pyStr second_point_name ++ "_" ++ pyStr obj_name
        let line_element_1 : Rec :=
          [("id", some line_id_1), ("name", some line_name_1),
           ("firstPoint", first_point_id), ("secondPoint", obj_id), ("implicit", some "True")]
        let line_element_2 : Rec :=
          [("id", some line_id_2), ("name", some line_name_2),
           ("firstPoint", second_point_id), ("secondPoint", obj_id), ("implicit", some "True")]
        let reg1 := add_to_objects_by_type (some "line") (some line_id_1) line_element_1
          (some line_name_1) reg
        some (add_to_objects_by_type (some "line") (some line_id_2) line_element_2
          (some line_name_2) reg1)
      else some reg
    | _, _ => none
  else some reg

/-- Embedding of `process_intersectXY_alongLinepoint(element, obj_id, obj_name, objects_by_type)`
(lines 287-347): choose the line-id stem from the construction type (any other
type exits the script, `none`), then synthesize the two implicit lines. -/
def process_intersectXY_alongLinepoint (element : Elem) (obj_id obj_name : Val)
    (reg : Registry) : Option Registry :=
  if elemAttr element "type" = some "intersectXY" then
    intersect_with_stem element obj_id obj_name reg
      ("Line_intersectXY_" ++ pyStr obj_id ++ "_")
  else if elemAttr element "type" = some "alongLine" then
    intersect_with_stem element obj_id obj_name reg
      ("Line_alongLine_" ++ pyStr obj_id ++ "_")
  else none

/-- Embedding of `process_endLine_point(element, obj_id, obj_name, objects_by_type)`
(lines 349-389): synthesizes one implicit line from the base point. -/
def process_endLine_point (element : Elem) (obj_id obj_name : Val)
    (reg : Registry) : Option Registry :=
  let base_id := elemAttr element "basePoint"
  if truthy base_id then
    match lookup_name_by_id base_id reg with
    | none => none
    | some (_, base_name) =>
      if truthy base_name then
        let line_id := "Line_endLine_" ++ pyStr base_id ++ "_" ++ pyStr obj_id
        let line_name := "Line_" ++ pyStr base_name ++ "_" ++ pyStr obj_name
        let line_element : Rec :=
          [("id", some line_id), ("name", some line_name),
           ("firstPoint", base_id), ("secondPoint", obj_id), ("implicit", some "True")]
        some (add_to_objects_by_type (some "line") (some line_id) line_element
          (some line_name) reg)
      else some reg
  else some reg

/-- Embedding of `process_lineIntersectAxis_point(element, obj_id, obj_name, objects_by_type)`
(lines 391-431): identical shape to the endLine case with a different id stem. -/
def process_lineIntersectAxis_point (element : Elem) (obj_id obj_name : Val)
    (reg : Registry) : Option Registry :=
  let base_id := elemAttr element "basePoint"
  if truthy base_id then
    match lookup_name_by_id base_id reg with
    | none => none
    | some (_, base_name) =>
      if truthy base_name then
        let line_id := "Line_lineIntersectAxis_" ++ pyStr base_id ++ "_" ++ pyStr obj_id
        let line_name := "Line_" ++ pyStr base_name ++ "_" ++ pyStr obj_name
        let line_element : Rec :=
          [("id", some line_id), ("name", some line_name),
           ("firstPoint", base_id), ("secondPoint", obj_id), ("implicit", some "True")]
        some (add_to_objects_by_type (some "line") (some line_id) line_element
          (some line_name) reg)
      else some reg
  else some reg

/-- Embedding of `process_single_point` (lines 433-459): attach a `block` attribute holding
the last registered draftBlock id, when one exists. -/
def process_single_point (element_attrs : Rec) (reg : Registry) : Rec :=
  match (getTagMap reg (some "draftBlock")).getLast? with
  | some kv => dictSet element_attrs "block" kv.1
  | none => element_attrs

/-- The `match obj_type` dispatch at the end of `categorize_point`
(lines 488-497): the kinds that synthesize implicit lines; any other kind only
prints and synthesizes nothing. -/
def point_synthesis (element : Elem) (obj_id obj_name : Val) (reg : Registry) :
    Option Registry :=
  if elemAttr element "type" = some "intersectXY" ∨ elemAttr element "type" = some "alongLine"
  then process_intersectXY_alongLinepoint element obj_id obj_name reg
  else if elemAttr element "type" = some "endLine"
  then process_endLine_point element obj_id obj_name reg
  else if elemAttr element "type" = some "lineIntersectAxis"
  then process_lineIntersectAxis_point element obj_id obj_name reg
  else some reg

/-- Embedding of `categorize_point(element, objects_by_type)` (lines 461-499): the point's
own record (name defaulting to `Point_<id>` only when the name attribute is
absent), then the implicit-line synthesis for the construction kind. -/
def categorize_point (element : Elem) (reg : Registry) : Option Registry :=
  let obj_id := elemAttr element "id"
  let obj_name := elemAttr element "name"
  let obj_type := elemAttr element "type"
  let name : Val :=
    match obj_name with
    | none => some ("Point_" ++ pyStr obj_id)
    | some n => some n
  let new_element := create_filtered_element element obj_id name
  let new_element :=
    if obj_type = some "single" then process_single_point new_element reg else new_element
  let reg1 := add_to_objects_by_type (some element.tag) obj_id new_element name reg
  point_synthesis element obj_id obj_name reg1

/-- The concatenated `<item>` children of the `<source>` children of an
operation element (`for source in element.findall('source'): for item in
source.findall('item')`, lines 708-719). -/
def op_src_items (element : Elem) : List Elem :=
  (element.children.filter (fun c => c.tag = "source")).foldl
    (fun acc s => acc ++ s.children.filter (fun c => c.tag = "item")) []

/-- The `<destination>` children of an operation element. -/
def op_dest_children (element : Elem) : List Elem :=
  element.children.filter (fun c => c.tag = "destination")

/-- Registration of the operation's own record (lines 690-706): the name is the
`suffix` attribute and the record goes under the operation's `type` attribute as
its registry tag. The `element.attrib['name'] = name` mutation is absorbed here:
`create_filtered_element` already sets `name` to the same value, and the copy
loop would only re-copy that identical value. -/
def op_self_reg (element : Elem) (reg : Registry) : Registry :=
  let obj_id := elemAttr element "id"
  let obj_type := elemAttr element "type"
  let obj_suffix := elemAttr element "suffix"
  add_to_objects_by_type obj_type obj_id
    (create_filtered_element element obj_id obj_suffix) obj_suffix reg

/-- Resolution of the source items' `idObject` references through
`lookup_name_by_id`; any unresolved reference crashes the run (`none`). -/
def lookupSourceItems (items : List Elem) (reg : Registry) : Option (List (String × Val)) :=
  match items with
  | [] => some []
  | it :: rest =>
    match lookup_name_by_id (elemAttr it "idObject") reg with
    | none => none
    | some tn => (lookupSourceItems rest reg).map (fun l => tn :: l)

/-- The destination name `f"{source_names[i]}{obj_suffix}"` (line 726). -/
def dest_name_of (src_name : Val) (obj_suffix : Val) : String :=
  pyStr src_name ++ pyStr obj_suffix

/-- The per-destination-child item loop of `categorize_operation`
(lines 721-737): item `i` is paired positionally with `source_types[i]` and
`source_names[i]`; an index beyond the source lists raises `IndexError`
(modelled as `none`). Each destination record gets the positional name, an
`op` attribute holding the operation's id, and loses its `idObject` attribute. -/
def process_dest_items (src_types : List String) (src_names : List Val)
    (obj_suffix obj_id : Val) (items : List Elem) (i : Nat) (reg : Registry) :
    Option Registry :=
  match items with
  | [] => some reg
  | item :: rest =>
    match src_types[i]?, src_names[i]? with
    | some dest_type, some src_name =>
      let dest_id := elemAttr item "idObject"
      let dest_name := dest_name_of src_name obj_suffix
      let r0 := create_filtered_element item dest_id (some dest_name)
      let r1 := dictSet r0 "op" obj_id
      let r2 := dictPop r1 "idObject"
      process_dest_items src_types src_names obj_suffix obj_id rest (i + 1)
        (add_to_objects_by_type (some dest_type) dest_id r2 (some dest_name) reg)
    | _, _ => none

/-- The outer `for dest in element.findall('destination')` loop: the item index
restarts at 0 for every destination child. -/
def process_dest_lists (src_types : List String) (src_names : List Val)
    (obj_suffix obj_id : Val) (dests : List Elem) (reg : Registry) : Option Registry :=
  match dests with
  | [] => some reg
  | d :: rest =>
    match process_dest_items src_types src_names obj_suffix obj_id
        (d.children.filter (fun c => c.tag = "item")) 0 reg with
    | none => none
    | some reg' => process_dest_lists src_types src_names obj_suffix obj_id rest reg'

/-- Embedding of `categorize_operation(element, objects_by_type)` (lines 682-739): register
the operation's own record, resolve the source items, then expand the
destination items positionally. -/
def categorize_operation (element : Elem) (reg : Registry) : Option Registry :=
  let obj_id := elemAttr element "id"
  let obj_suffix := elemAttr element "suffix"
  let reg1 := op_self_reg element reg
  match lookupSourceItems (op_src_items element) reg1 with
  | none => none
  | some pairs =>
    process_dest_lists (pairs.map Prod.fst) (pairs.map Prod.snd) obj_suffix obj_id
      (op_dest_children element) reg1

/-- The operator characters of the formula-splitting regular expression
`[\+\-\*/\(\)\<\>\=\?\:\;]` (line 924). -/
def isOpChar (c : Char) : Bool :=
  c == '+' || c == '-' || c == '*' || c == '/' || c == '(' || c == ')' ||
  c == '<' || c == '>' || c == '=' || c == '?' || c == ':' || c == ';'

/-- Splitting a character list at every operator character, keeping the (possibly
empty) pieces in between, as `re.split` does on a single-character class. -/
def split_on_operators (cs : List Char) (cur : List Char) : List (List Char) :=
  match cs with
  | [] => [cur.reverse]
  | c :: rest =>
    if isOpChar c then cur.reverse :: split_on_operators rest []
    else split_on_operators rest (c :: cur)

/-- Python `str.strip()` on a character list. -/
def trim_chars (cs : List Char) : List Char :=
  ((cs.dropWhile Char.isWhitespace).reverse.dropWhile Char.isWhitespace).reverse

/-- Lines 924-926: split the formula on operator characters, strip each
segment, and drop the empty ones. -/
def tokenize_formula (formula : String) : List String :=
  ((split_on_operators formula.toList []).map (fun cs => String.mk (trim_chars cs))).filter
    (fun s => !(s == ""))

/-- The operator strings skipped at line 935 (unreachable after the split, but
part of the per-segment filter). -/
def math_operator_strings : List String :=
  ["+", "-", "*", "/", "(", ")", "<", ">", "=", "?", ":", ";"]

/-- The math-function names skipped at line 939. -/
def math_function_names : List String :=
  ["max", "min", "abs", "sqrt", "sin", "cos", "tan", "log", "exp"]

/-- Python `segment.lower()`. -/
def lowerStr (s : String) : String :=
  String.mk (s.toList.map Char.toLower)

/-- The number test `re.fullmatch(r'[0-9.]+', segment)` (line 943). -/
def is_numeric_token (s : String) : Bool :=
  !(s.toList.isEmpty) && s.toList.all (fun c => c.isDigit || c == '.')

/-- Lines 930-945 of the per-segment loop: strip the 5-character `Angle` head
from an `AngleLine...` segment, then drop the segment when it is an operator, a
math-function name, or a numeric literal. The result is the token that reaches
measurement/registry classification (`none` when the segment is dropped). -/
def classify_gate (seg0 : String) : Option String :=
  let seg :=
    if ("AngleLine".toList).isPrefixOf seg0.toList then String.mk (seg0.toList.drop 5)
    else seg0
  if seg ∈ math_operator_strings then none
  else if lowerStr seg ∈ math_function_names then none
  else if is_numeric_token seg then none
  else some seg

/-- The symbol candidates of a formula: exactly the tokens that survive the
operator/function/number filters and reach classification. -/
def formula_symbol_candidates (formula : String) : List String :=
  (tokenize_formula formula).filterMap classify_gate

/-- Embedding of `find_in_csv_first_column(csv_file_path, search_string)` (lines 54-77), with
the file contents given as rows: True when some non-empty row's first column,
stripped, equals the stripped search string. -/
def find_in_csv_first_column (rows : List (List String)) (search : String) : Bool :=
  rows.any (fun row =>
    match row with
    | [] => false
    | c :: _ => String.mk (trim_chars c.toList) == String.mk (trim_chars search.toList))

/-- The inner item scan of the formula name-resolution loop (lines 959-977):
walk one tag's records in insertion order; a record whose stored name is `None`
exits the script (`none`); the first record whose name equals the segment is the
match for this tag (`some (some id)`); otherwise `some none`. -/
def scan_tag_items (items : List (Val × Rec)) (segment : String) : Option (Option Val) :=
  match items with
  | [] => some none
  | (id, item) :: rest =>
    match (dictGet item "name").join with
    | none => none
    | some nm => if segment = nm then some (some id) else scan_tag_items rest segment

/-- The outer tag scan: the `break` leaves only the inner loop, so every tag is
scanned and each matching tag contributes one appended id, in tag order. -/
def scan_all_tags (tags : Registry) (segment : String) : Option (List Val) :=
  match tags with
  | [] => some []
  | (_, items) :: rest =>
    match scan_tag_items items segment with
    | none => none
    | some r =>
      (scan_all_tags rest segment).map
        (fun l => match r with | some id => id :: l | none => l)

/-- One segment of the formula branch of the main extraction loop
(lines 928-986). State: (measurement id counter, dependency pairs appended so
far). The measurement branch (lines 947-954) allocates a fresh id and builds
`dependency_pair` but never appends it; the registry branch appends one pair per
matching tag; an unmatched segment exits the script. -/
def process_formula_segment (catalog : List (List String)) (reg : Registry)
    (st : Nat × List (Val × Val)) (seg0 : String) : Option (Nat × List (Val × Val)) :=
  match classify_gate seg0 with
  | none => some st
  | some seg =>
    if find_in_csv_first_column catalog seg then
      some (st.1 + 1, st.2)
    else
      match scan_all_tags reg seg with
      | none => none
      | some [] => none
      | some ids => some (st.1, st.2 ++ ids.map (fun i => (i, some seg)))

/-- Processing of one formula attribute value: tokenize, then run every segment
through the classification loop. -/
def process_formula_value (catalog : List (List String)) (reg : Registry)
    (ctr : Nat) (formula : String) : Option (Nat × List (Val × Val)) :=
  (tokenize_formula formula).foldlM (process_formula_segment catalog reg) (ctr, [])

/-- One entry of the finished dependency graph as built by the main loop
(lines 888-891): a Python dict with exactly the keys `name` and
`dependencies`. -/
structure DepEntry where
  name : Val
  dependencies : List (Val × Val)

/-- The keys of the Python dict that a finished-graph entry is: the main loop
always creates `{'name': ..., 'dependencies': [...]}` and nothing else. -/
def DepEntry.dict_keys (_ : DepEntry) : List String :=
  ["name", "dependencies"]

/-- Embedding of `find_variables_using_target(target_var, dependencies)` (lines 111-126) on
the finished graph: `if target_var in deps` tests membership of the target among
the KEYS of the per-object dict (`name`, `dependencies`), not among the
dependency pairs. -/
def find_variables_using_target (target_var : String)
    (dependencies : List (Val × DepEntry)) : List Val :=
  (dependencies.filter (fun p => target_var ∈ p.2.dict_keys)).map Prod.fst

/-- The ids appearing in an entry's direct dependency list (each stored pair is
`[dep_id, dep_name]`). -/
def direct_dep_ids (e : DepEntry) : List Val :=
  e.dependencies.map Prod.fst

/-- The number of graph keys not yet visited; the termination measure of the
recursive closure query. -/
def unvisited_key_count (graph : List (String × List String)) (visited : List String) : Nat :=
  ((graph.map Prod.fst).filter (fun k => decide (¬ k ∈ visited))).length

/-- Embedding of `find_variable_dependencies(target_var, dependencies, visited)`
(lines 79-109): an already-visited target returns the empty set; otherwise the
target is added to the visited set, its direct dependencies are collected, and
each direct dependency is expanded recursively with a copy of the extended
visited set. The returned set is modelled as a list up to membership. -/
def find_variable_dependencies (target_var : String)
    (graph : List (String × List String)) (visited : List String) : List String :=
  if target_var ∈ visited then []
  else
    match h : graph.find? (fun p => p.1 = target_var) with
    | none => []
    | some p =>
      p.2.foldl
        (fun acc dep => acc ++ find_variable_dependencies dep graph (target_var :: visited))
        p.2
termination_by unvisited_key_count graph visited
decreasing_by
  have hmem : target_var ∈ graph.map Prod.fst := by
    have hp := List.find?_some h
    have hpm := List.mem_of_find?_eq_some h
    simp only [decide_eq_true_eq] at hp
    exact hp ▸ List.mem_map_of_mem Prod.fst hpm
  have hnv : ¬ target_var ∈ visited := by assumption
  have hsub : ∀ (ys : List String),
      (ys.filter (fun k => decide (¬ k ∈ target_var :: visited))).length ≤
      (ys.filter (fun k => decide (¬ k ∈ visited))).length := by
    intro ys
    induction ys with
    | nil => exact Nat.le_refl 0
    | cons y zs ihz =>
      rw [List.filter_cons, List.filter_cons]
      by_cases hy : y ∈ target_var :: visited
      · rw [show (decide (¬ y ∈ target_var :: visited)) = false by simp [hy]]
        by_cases hy2 : y ∈ visited
        · rw [show (decide (¬ y ∈ visited)) = false by simp [hy2]]
          simpa using ihz
        · rw [show (decide (¬ y ∈ visited)) = true by simp [hy2]]
          simp only [if_true, if_false, List.length_cons]
          exact Nat.le_succ_of_le ihz
      · have hy2 : ¬ y ∈ visited := fun hc => hy (List.mem_cons_of_mem _ hc)
        rw [show (decide (¬ y ∈ target_var :: visited)) = true by simp [hy],
            show (decide (¬ y ∈ visited)) = true by simp [hy2]]
        simpa using ihz
  have key : ∀ (l : List String), target_var ∈ l →
      (l.filter (fun k => decide (¬ k ∈ target_var :: visited))).length <
      (l.filter (fun k => decide (¬ k ∈ visited))).length := by
    intro l hl
    induction l with
    | nil => cases hl
    | cons x xs ih =>
      rw [List.filter_cons, List.filter_cons]
      rcases List.mem_cons.mp hl with hx | hx
      · subst hx
        rw [show (decide (¬ target_var ∈ target_var :: visited)) = false by simp,
            show (decide (¬ target_var ∈ visited)) = true by simp [hnv]]
        simp only [if_true, if_false, List.length_cons]
        exact Nat.lt_succ_of_le (hsub xs)
      · by_cases hxv : x ∈ target_var :: visited
        · rw [show (decide (¬ x ∈ target_var :: visited)) = false by simp [hxv]]
          by_cases hxv2 : x ∈ visited
          · rw [show (decide (¬ x ∈ visited)) = false by simp [hxv2]]
            simpa using ih hx
          · rw [show (decide (¬ x ∈ visited)) = true by simp [hxv2]]
            simp only [if_true, if_false, List.length_cons]
            exact Nat.lt_succ_of_lt (ih hx)
        · have hxv2 : ¬ x ∈ visited := fun hc => hxv (List.mem_cons_of_mem _ hc)
          rw [show (decide (¬ x ∈ target_var :: visited)) = true by simp [hxv],
              show (decide (¬ x ∈ visited)) = true by simp [hxv2]]
          simp only [if_true, List.length_cons]
          exact Nat.succ_lt_succ (ih hx)
  simp only [unvisited_key_count]
  exact key _ hmem

/-- The `skip_tags` list of the script, copied verbatim (line 35). -/
def skip_tags : List String :=
  ["unit", "version", "description", "notes", "patternLabel"]

/-- The parent tags of the walker's match (line 782): structural containers
that register nothing themselves. -/
def parent_tags : List String :=
  ["pattern", "measurements", "variables", "draftBlocks", "calculation", "modeling",
   "pieces", "groups"]

/-- Python slice `s[0:2]`. -/
def pyTake2 (s : String) : String :=
  String.mk (s.toList.take 2)

/-- Embedding of `categorize_variable(element, objects_by_type)` (lines 501-528):
header rows (name starting with the two-character markers) are skipped entirely;
otherwise the variable gets the next descending counter value as id and its
explicit name. A missing name attribute crashes (`None[0:2]` raises TypeError,
modelled as `none`). -/
def categorize_variable (element : Elem) (var_ctr : Int) (reg : Registry) :
    Option (Int × Registry) :=
  match elemAttr element "name" with
  | none => none
  | some obj_name =>
    if pyTake2 obj_name = "#_" ∨ pyTake2 obj_name = "##" then some (var_ctr, reg)
    else
      let obj_id := toString var_ctr
      let new_element := create_filtered_element element (some obj_id) (some obj_name)
      some (var_ctr - 1,
        add_to_objects_by_type (some element.tag) (some obj_id) new_element
          (some obj_name) reg)

/-- Embedding of `categorize_draftBlock(element, objects_by_type)` (lines
530-558): the id is allocated from the ascending block counter; the name is the
explicit name when truthy, else `Block<id>`. -/
def categorize_draftBlock (element : Elem) (block_ctr : Nat) (reg : Registry) :
    Nat × Registry :=
  let obj_id := "block_id_" ++ toString block_ctr
  let obj_name := elemAttr element "name"
  let name := if truthy obj_name then pyStr obj_name else "Block" ++ obj_id
  let new_element := create_filtered_element element (some obj_id) (some name)
  (block_ctr + 1,
    add_to_objects_by_type (some element.tag) (some obj_id) new_element (some name) reg)

/-- Embedding of `categorize_measurement(element, objects_by_type)` (lines
560-589): the id is allocated from the ascending measurement counter; the name
is the explicit name when truthy, else `m<id>`. -/
def categorize_measurement (element : Elem) (meas_ctr : Nat) (reg : Registry) :
    Nat × Registry :=
  let obj_id := "m_id_" ++ toString meas_ctr
  let obj_name := elemAttr element "name"
  let name := if truthy obj_name then pyStr obj_name else "m" ++ obj_id
  let new_element := create_filtered_element element (some obj_id) (some name)
  (meas_ctr + 1,
    add_to_objects_by_type (some element.tag) (some obj_id) new_element (some name) reg)

/-- Embedding of `categorize_arc(element, objects_by_type)` (lines 591-627): the
name is the explicit name when truthy, else the `elArc_...` / `arc_...`
fallback built from the center/radius attributes. -/
def categorize_arc (element : Elem) (reg : Registry) : Registry :=
  let obj_id := elemAttr element "id"
  let obj_name := elemAttr element "name"
  let name :=
    if truthy obj_name then pyStr obj_name
    else if element.tag = "elArc" then
      "elArc_" ++ pyStr (elemAttr element "center1") ++ "_" ++
        pyStr (elemAttr element "center2") ++ "_" ++ pyStr (elemAttr element "radius1") ++
        "_" ++ pyStr (elemAttr element "radius2")
    else
      "arc_" ++ pyStr (elemAttr element "center") ++ "_" ++ pyStr (elemAttr element "radius")
  add_to_objects_by_type (some element.tag) obj_id
    (create_filtered_element element obj_id (some name)) (some name) reg

/-- The resolved point names of a spline's `point*` attributes (lines 657-671):
attributes whose key starts with 'point', in attribute order, each resolved in
the point map; `item.get('name', 'point_<id>')` yields the stored (possibly
`None`) name, or the default only when the key is absent. An id missing from the
point map only prompts — the bare `exit` on line 669 is a no-op expression, so
the value is skipped and the scan continues. -/
def spline_point_names (element : Elem) (reg : Registry) : List Val :=
  (element.attrs.filter (fun kv => kv.1.startsWith "point")).filterMap
    (fun kv =>
      match dictGet (getTagMap reg (some "point")) (some kv.2) with
      | some item => some ((dictGet item "name").getD (some ("point_" ++ kv.2)))
      | none => none)

/-- Embedding of `categorize_spline(element, objects_by_type)` (lines 629-680):
name = `<SplPath|Spl>_<firstResolvedName>_<lastResolvedName>`; when no point
name resolves at all, `name_values[0]` raises IndexError (modelled as `none`). -/
def categorize_spline (element : Elem) (reg : Registry) : Option Registry :=
  match (spline_point_names element reg).head?, (spline_point_names element reg).getLast? with
  | some first, some last =>
    let spl_pre := if elemAttr element "type" = some "cubicBezier" then "SplPath" else "Spl"
    let obj_id := elemAttr element "id"
    let name := spl_pre ++ "_" ++ pyStr first ++ "_" ++ pyStr last
    some (add_to_objects_by_type (some element.tag) obj_id
      (create_filtered_element element obj_id (some name)) (some name) reg)
  | _, _ => none

/-- The mutable state of the document walk: the three id counters (initially
1, 1, -1) and the registry. -/
structure WalkState where
  block_ctr : Nat
  meas_ctr : Nat
  var_ctr : Int
  reg : Registry

/-- The state at the start of a run (lines 26-28: counters 1, 1, -1; empty
`objects_by_type`). -/
def initial_walk_state : WalkState :=
  WalkState.mk 1 1 (-1) []

/-- The tag dispatch of `categorize_elements` (lines 759-788), in the source's
case order: each categorizer updates the registry (and its counter); parent
tags register nothing; an unrecognized tag exits the script (`none`). -/
def categorize_step (element : Elem) (st : WalkState) : Option WalkState :=
  if element.tag = "line" then
    some (WalkState.mk st.block_ctr st.meas_ctr st.var_ctr (categorize_line element st.reg))
  else if element.tag = "point" then
    (categorize_point element st.reg).map
      (fun r => WalkState.mk st.block_ctr st.meas_ctr st.var_ctr r)
  else if element.tag = "variable" then
    (categorize_variable element st.var_ctr st.reg).map
      (fun p => WalkState.mk st.block_ctr st.meas_ctr p.1 p.2)
  else if element.tag = "draftBlock" then
    let p := categorize_draftBlock element st.block_ctr st.reg
    some (WalkState.mk p.1 st.meas_ctr st.var_ctr p.2)
  else if element.tag = "m" then
    let p := categorize_measurement element st.meas_ctr st.reg
    some (WalkState.mk st.block_ctr p.1 st.var_ctr p.2)
  else if element.tag = "arc" ∨ element.tag = "elArc" then
    some (WalkState.mk st.block_ctr st.meas_ctr st.var_ctr (categorize_arc element st.reg))
  else if element.tag = "spline" then
    (categorize_spline element st.reg).map
      (fun r => WalkState.mk st.block_ctr st.meas_ctr st.var_ctr r)
  else if element.tag = "operation" then
    (categorize_operation element st.reg).map
      (fun r => WalkState.mk st.block_ctr st.meas_ctr st.var_ctr r)
  else if element.tag ∈ parent_tags then some st
  else none

mutual

/-- Embedding of `categorize_elements(element)` (lines 741-802): skip tags
return immediately; otherwise the element is dispatched to its categorizer and
then, for every tag except `operation`, the children are walked in order. -/
def categorize_elements : Elem → WalkState → Option WalkState
  | Elem.mk tag attrs children, st =>
    if tag ∈ skip_tags then some st
    else
      match categorize_step (Elem.mk tag attrs children) st with
      | none => none
      | some st' =>
        if tag = "operation" then some st'
        else walk_children children st'

/-- The child loop of `categorize_elements` (lines 797-799), threading the
walk state left to right; a crash in any child aborts the run. -/
def walk_children : List Elem → WalkState → Option WalkState
  | [], st => some st
  | c :: rest, st =>
    match categorize_elements c st with
    | none => none
    | some st' => walk_children rest st'

end

/-- The naming proviso on a single element: an explicit name attribute, when
present, is non-empty, and an operation element carries a present, non-empty
suffix attribute. -/
def elem_ok (e : Elem) : Bool :=
  (match elemAttr e "name" with
   | some n => !(n == "")
   | none => true) &&
  (if e.tag = "operation" then
     match elemAttr e "suffix" with
     | some suf => !(suf == "")
     | none => false
   else true)

mutual

/-- The naming proviso over a whole document tree. -/
def tree_ok : Elem → Bool
  | Elem.mk tag attrs children => elem_ok (Elem.mk tag attrs children) && children_ok children

/-- The naming proviso over a list of sibling subtrees. -/
def children_ok : List Elem → Bool
  | [] => true
  | c :: rest => tree_ok c && children_ok rest

end

/-- Every record of the registry carries a present, non-empty name string. -/
def all_names_nonempty (reg : Registry) : Prop :=
  ∀ tag id rc, regGet reg tag id = some rc →
    ∃ s, (dictGet rc "name").join = some s ∧ s ≠ ""

/-- Relation between a registry and its successor after one categorizer call:
every location is either unchanged or holds a record whose name is a non-empty
string. -/
def nonempty_names_preserved (reg reg' : Registry) : Prop :=
  ∀ tag id, regGet reg' tag id = regGet reg tag id ∨
    ∃ s, registered_name reg' tag id = some (some s) ∧ s ≠ ""

/-- A small demonstration document: a pattern holding one draft block whose
calculation carries a named single point and a line joining that point to
itself. -/
def demo_document : Elem :=
  Elem.mk "pattern" []
    [Elem.mk "draftBlock" [("name", "Blk")]
      [Elem.mk "calculation" []
        [Elem.mk "point" [("id", "5"), ("name", "A"), ("type", "single")] [],
         Elem.mk "line" [("id", "7"), ("firstPoint", "5"), ("secondPoint", "5")] []]]]

/-- The walk state the demonstration document produces: one draft block, the
point (with its attached block reference) and the line with its fallback name. -/
def demo_final_state : WalkState :=
  WalkState.mk 2 1 (-1)
    [(some "draftBlock",
       [(some "block_id_1", [("id", some "block_id_1"), ("name", some "Blk")])]),
     (some "point",
       [(some "5", [("id", some "5"), ("name", some "A"), ("type", some "single"),
                    ("block", some "block_id_1")])]),
     (some "line",
       [(some "7", [("id", some "7"), ("name", some "line7"), ("firstPoint", some "5"),
                    ("secondPoint", some "5")])])]

/-
Helper lemmas about the dict and registry primitives.
-/

theorem dictGet_dictSet_self {K V : Type} [DecidableEq K] (d : List (K × V)) (k : K) (v : V) :
    dictGet (dictSet d k v) k = some v := by
  induction d with
  | nil => simp [dictGet, dictSet]
  | cons kv rest ih =>
    obtain ⟨k', v'⟩ := kv
    by_cases h : k' = k
    · simp [dictSet, dictGet, h]
    · simp [dictSet, dictGet, h, ih]

theorem dictGet_dictSet_ne {K V : Type} [DecidableEq K] (d : List (K × V)) (k k' : K) (v : V)
    (h : k' ≠ k) : dictGet (dictSet d k v) k' = dictGet d k' := by
  have hkk : ¬ k = k' := fun hc => h hc.symm
  induction d with
  | nil => simp [dictGet, dictSet, hkk]
  | cons kv rest ih =>
    obtain ⟨k0, v0⟩ := kv
    by_cases h0 : k0 = k
    · have hk0 : ¬ k0 = k' := fun hc => hkk (h0.symm.trans hc)
      simp [dictSet, dictGet, h0, hk0, hkk]
    · by_cases h1 : k0 = k'
      · simp [dictSet, dictGet, h0, h1, h, hkk]
      · simp [dictSet, dictGet, h0, h1, ih]

theorem dictGet_dictPop {K V : Type} [DecidableEq K] (d : List (K × V)) (k k' : K) :
    dictGet (dictPop d k) k' = if k' = k then none else dictGet d k' := by
  induction d with
  | nil => simp [dictGet, dictPop]
  | cons kv rest ih =>
    obtain ⟨k0, v0⟩ := kv
    rw [dictPop, List.filter_cons]
    rw [dictPop] at ih
    by_cases h0 : k0 = k
    · rw [show (decide (¬ (k0, v0).1 = k)) = false by simp [h0]]
      rw [if_neg (show ¬ (false = true) by simp)]
      rw [ih]
      by_cases hk : k' = k
      · simp [hk]
      · have hk0 : ¬ k0 = k' := fun hc => hk (hc.symm.trans h0)
        simp [hk, dictGet, hk0]
    · rw [show (decide (¬ (k0, v0).1 = k)) = true by simp [h0]]
      rw [if_pos rfl]
      by_cases h1 : k0 = k'
      · subst h1
        rw [show dictGet ((k0, v0) :: rest.filter (fun kv => decide (¬ kv.1 = k))) k0 =
              some v0 by simp [dictGet]]
        rw [if_neg (fun hc : k0 = k => h0 hc)]
        simp [dictGet]
      · rw [show dictGet ((k0, v0) :: rest.filter (fun kv => decide (¬ kv.1 = k))) k' =
              dictGet (rest.filter (fun kv => decide (¬ kv.1 = k))) k' by simp [dictGet, h1]]
        rw [ih]
        by_cases hk : k' = k
        · simp [hk]
        · simp [hk, dictGet, h1]

theorem dictGet_display_filter (d : Rec) (k : String) :
    dictGet (d.filter (fun kv => decide (¬ kv.1 ∈ display_attributes))) k =
    if k ∈ display_attributes then none else dictGet d k := by
  induction d with
  | nil => simp [dictGet]
  | cons kv rest ih =>
    obtain ⟨k0, v0⟩ := kv
    rw [List.filter_cons]
    by_cases h0 : k0 ∈ display_attributes
    · rw [show (decide (¬ (k0, v0).1 ∈ display_attributes)) = false by simp [h0]]
      rw [if_neg (show ¬ (false = true) by simp)]
      rw [ih]
      by_cases hk : k ∈ display_attributes
      · simp [hk]
      · have hk0 : ¬ k0 = k := fun hc => hk (hc ▸ h0)
        simp [hk, dictGet, hk0]
    · rw [show (decide (¬ (k0, v0).1 ∈ display_attributes)) = true by simp [h0]]
      rw [if_pos rfl]
      by_cases h1 : k0 = k
      · subst h1
        rw [show dictGet ((k0, v0) :: rest.filter
              (fun kv => decide (¬ kv.1 ∈ display_attributes))) k0 = some v0 by simp [dictGet]]
        rw [if_neg h0]
        simp [dictGet]
      · rw [show dictGet ((k0, v0) :: rest.filter
              (fun kv => decide (¬ kv.1 ∈ display_attributes))) k =
              dictGet (rest.filter (fun kv => decide (¬ kv.1 ∈ display_attributes))) k by
            simp [dictGet, h1]]
        rw [ih]
        by_cases hk : k ∈ display_attributes
        · simp [hk]
        · simp [hk, dictGet, h1]

theorem dictSet_length_new {K V : Type} [DecidableEq K] (d : List (K × V)) (k : K) (v : V)
    (h : dictGet d k = none) : (dictSet d k v).length = d.length + 1 := by
  induction d with
  | nil => simp [dictSet]
  | cons kv rest ih =>
    obtain ⟨k', v'⟩ := kv
    by_cases hk : k' = k
    · simp [dictGet, hk] at h
    · simp only [dictGet, hk, if_false] at h
      simp [dictSet, hk, ih h]

theorem getTagMap_add_self (t i : Val) (a : Rec) (n : Val) (reg : Registry) :
    getTagMap (add_to_objects_by_type t i a n reg) t =
    dictSet (getTagMap reg t) i (add_rec a n) := by
  rw [add_to_objects_by_type, getTagMap, dictGet_dictSet_self]
  rfl

theorem getTagMap_add_ne (t t' i : Val) (a : Rec) (n : Val) (reg : Registry) (h : t' ≠ t) :
    getTagMap (add_to_objects_by_type t i a n reg) t' = getTagMap reg t' := by
  rw [add_to_objects_by_type, getTagMap, dictGet_dictSet_ne _ _ _ _ h]
  rfl

theorem regGet_add_self (t i : Val) (a : Rec) (n : Val) (reg : Registry) :
    regGet (add_to_objects_by_type t i a n reg) t i = some (add_rec a n) := by
  rw [regGet, getTagMap_add_self, dictGet_dictSet_self]

theorem regGet_add_ne (t t' i i' : Val) (a : Rec) (n : Val) (reg : Registry)
    (h : t' ≠ t ∨ i' ≠ i) :
    regGet (add_to_objects_by_type t i a n reg) t' i' = regGet reg t' i' := by
  rcases h with h | h
  · rw [regGet, getTagMap_add_ne _ _ _ _ _ _ h]
    rfl
  · by_cases ht : t' = t
    · subst ht
      rw [regGet, getTagMap_add_self, dictGet_dictSet_ne _ _ _ _ h]
      rfl
    · rw [regGet, getTagMap_add_ne _ _ _ _ _ _ ht]
      rfl

theorem add_rec_name (a : Rec) (n : Val) : dictGet (add_rec a n) "name" = some n :=
  dictGet_dictSet_self _ _ _

theorem registered_name_add (t i : Val) (a : Rec) (n : Val) (reg : Registry) :
    registered_name (add_to_objects_by_type t i a n reg) t i = some n := by
  rw [registered_name, regGet_add_self]
  simp [add_rec_name]

theorem add_rec_other (a : Rec) (n : Val) (k : String) (hk : k ≠ "name") :
    dictGet (add_rec a n) k = if k ∈ display_attributes then none else dictGet a k := by
  rw [add_rec, dictGet_dictSet_ne _ _ _ _ hk, dictGet_display_filter]

/-
String helper lemmas.
-/

theorem str_data_eq {a b : String} (h : a.data = b.data) : a = b := String.ext h

theorem str_append_ne_empty_left (a b : String) (h : a ≠ "") : a ++ b ≠ "" := by
  intro hc
  have hd := congrArg String.data hc
  rw [String.data_append] at hd
  exact h (str_data_eq (List.append_eq_nil.mp (by simpa using hd)).1)

theorem str_append_ne_empty_right (a b : String) (h : b ≠ "") : a ++ b ≠ "" := by
  intro hc
  have hd := congrArg String.data hc
  rw [String.data_append] at hd
  exact h (str_data_eq (List.append_eq_nil.mp (by simpa using hd)).2)

theorem str_append_one_ne_two (a : String) : a ++ "1" ≠ a ++ "2" := by
  intro h
  have hd := congrArg String.data h
  rw [String.data_append, String.data_append] at hd
  have := List.append_cancel_left hd
  simp at this

/-
Concrete evaluation of the closure query on the two-node cycle A to B to A,
shared by the two C1 theorems.
-/

theorem closure_cycle_eval :
    find_variable_dependencies "A" [("A", ["B"]), ("B", ["A"])] [] = ["B", "A"] := by
  have h1 : find_variable_dependencies "A" [("A", ["B"]), ("B", ["A"])] ["B", "A"] = [] := by
    unfold find_variable_dependencies
    simp
  have h2 : find_variable_dependencies "B" [("A", ["B"]), ("B", ["A"])] ["A"] = ["A"] := by
    unfold find_variable_dependencies
    rw [if_neg (by simp)]
    split
    · next heq => simp [List.find?] at heq
    · next p heq =>
      simp [List.find?] at heq
      subst heq
      simp [List.foldl, h1]
  unfold find_variable_dependencies
  rw [if_neg (by simp)]
  split
  · next heq => simp [List.find?] at heq
  · next p heq =>
    simp [List.find?] at heq
    subst heq
    simp [List.foldl, h2]

/-- Claim C1, counterexample: on the graph with exactly the edges A to B and
B to A, the transitive closure of A computed by `find_variable_dependencies`
DOES contain A itself (the start node is re-added when the cycle returns to it
through B's direct dependency list), so the claimed result set {B} is wrong. -/
theorem closure_cycle_contains_start :
    "A" ∈ find_variable_dependencies "A" [("A", ["B"]), ("B", ["A"])] [] := by
  rw [closure_cycle_eval]
  simp

/-- Claim C1, amended: on the graph with exactly the edges A to B and B to A,
the closure query applied to A terminates (the function is total) and returns
exactly the set {A, B}: it contains B, and also contains A itself because the
cycle guard only stops re-expansion, not re-addition of an already-visited
node found in a direct dependency list. -/
theorem closure_cycle_result (x : String) :
    x ∈ find_variable_dependencies "A" [("A", ["B"]), ("B", ["A"])] [] ↔
      (x = "A" ∨ x = "B") := by
  rw [closure_cycle_eval]
  constructor
  · intro hx
    rcases List.mem_cons.mp hx with hx | hx
    · exact Or.inr hx
    · exact Or.inl (by simpa using hx)
  · intro hx
    rcases hx with hx | hx
    · simp [hx]
    · simp [hx]

/-- Claim C2, code bug: on a finished dependency graph (whose entries are the
dicts `'name'/'dependencies'` built by the main loop), the reverse-dependents
query is broken: `if target_var in deps` tests membership among the KEYS of the
entry dict, not in the dependency list. Here id "1" is in the direct dependency
list of id "10", yet `find_variables_using_target "1"` returns the empty list
(so the claimed inverse property fails), while the non-id string "name" is
reported as used by every object. -/
theorem reverse_lookup_misses_direct_dependency :
    (some "1") ∈ direct_dep_ids
      (DepEntry.mk (some "Line_P1_P2") [(some "1", some "P1"), (some "2", some "P2")]) ∧
    find_variables_using_target "1"
      [(some "10", DepEntry.mk (some "Line_P1_P2")
        [(some "1", some "P1"), (some "2", some "P2")])] = [] ∧
    find_variables_using_target "name"
      [(some "10", DepEntry.mk (some "Line_P1_P2")
        [(some "1", some "P1"), (some "2", some "P2")])] = [some "10"] := by
  refine ⟨by simp [direct_dep_ids], by decide, by decide⟩

/-- Claim C3, code bug: a formula token that matches the measurement catalog is
classified as a measurement (the measurement id counter advances from 1 to 2),
but the built `dependency_pair` is never appended: the resulting dependency
list is empty instead of containing the pair. -/
theorem measurement_token_pair_not_appended :
    process_formula_value [["waist_circ"]] [] 1 "waist_circ" = some (2, []) := by
  decide

/-- Claim C8: tokenizing the formula "A+B*2-sin(C)" yields exactly the symbol
candidates A, B and C; the numeric literal 2 and the math-function name sin are
dropped by the filters and never reach measurement or registry classification
(`formula_symbol_candidates` is by construction the list of tokens that reach
the classification step). -/
theorem formula_candidates_example :
    formula_symbol_candidates "A+B*2-sin(C)" = ["A", "B", "C"] := by
  decide

/-- Claim C10, code bug: looking up an id that is registered under no tag does
not return the fallback pair ('unknown', 'Unknown_<id>'): after the
unsuccessful scan `obj_tag` holds the last tag of `object_tags` (never `None`),
the fallback branch is dead, and the function crashes with `UnboundLocalError`
(modelled as `none`). A registered id, by contrast, resolves normally. -/
theorem lookup_unknown_id_crashes :
    lookup_name_by_id (some "999") [(some "point", [(some "1", [("name", some "A")])])] =
      none ∧
    lookup_name_by_id (some "1") [(some "point", [(some "1", [("name", some "A")])])] =
      some ("point", some "A") := by
  decide

/-- Claim C6, counterexample: a line element whose firstPoint and secondPoint
both hold the id "1", which resolves to the registered point named "A", is
registered as "line7" (the id fallback) and not as "Line_A_A": the resolution
loop's `elif` never assigns the second name when the two endpoint ids are
equal, so the claim's naming rule fails on that input. -/
theorem line_name_equal_endpoints_fallback :
    registered_name
      (categorize_line
        (Elem.mk "line" [("id", "7"), ("firstPoint", "1"), ("secondPoint", "1")] [])
        [(some "point", [(some "1", [("id", some "1"), ("name", some "A")])])])
      (some "line") (some "7") = some (some "line7") ∧
    ("line7" : String) ≠ "Line_A_A" := by
  refine ⟨by decide, by decide⟩

/-- Claim C6, amended: for a line element whose firstPoint and secondPoint
attributes are present, non-empty, and resolve among the registered points to
non-empty names A and B, the registered line record is named Line_A_B provided
the two endpoint ids are distinct; when the two ids are equal the name falls
back to 'line' followed by the element id (and the fallback also covers a
missing or unresolvable endpoint attribute). -/
theorem line_naming_rule
    (e : Elem) (reg : Registry) (lid f s A B : String) (recF recS : Rec)
    (htag : e.tag = "line")
    (hid : elemAttr e "id" = some lid)
    (hf : elemAttr e "firstPoint" = some f) (hfne : f ≠ "")
    (hs : elemAttr e "secondPoint" = some s) (hsne : s ≠ "")
    (hF : dictGet (getTagMap reg (some "point")) (some f) = some recF)
    (hFn : (dictGet recF "name").join = some A) (hAne : A ≠ "")
    (hS : dictGet (getTagMap reg (some "point")) (some s) = some recS)
    (hSn : (dictGet recS "name").join = some B) (hBne : B ≠ "") :
    registered_name (categorize_line e reg) (some "line") (some lid) =
      some (some (if f = s then "line" ++ lid else "Line_" ++ A ++ "_" ++ B)) := by
  have htf : truthy (some f) = true := by simp [truthy, hfne]
  have hts : truthy (some s) = true := by simp [truthy, hsne]
  have htA : truthy (some A) = true := by simp [truthy, hAne]
  have htB : truthy (some B) = true := by simp [truthy, hBne]
  simp only [categorize_line, hid, htag]
  rw [registered_name_add]
  simp only [Option.some.injEq]
  rw [hf, hs, htf, hts]
  simp only [Bool.and_self, if_true]
  by_cases hfs : f = s
  · subst hfs
    simp [pyStr, truthy]
  · rw [if_neg (show ¬ (some f : Val) = some s by simpa using hfs)]
    rw [hF, hS]
    simp only [Option.some_bind]
    rw [hFn, hSn, htA, htB]
    simp [pyStr, hfs]

/-
Preservation lemmas: the implicit-line synthesizers only ever register records
under the tag `line`, so every other registry location is untouched.
-/

theorem process_endLine_preserves (e : Elem) (oid onm : Val) (reg r : Registry)
    (tag id : Val) (htag : tag ≠ some "line")
    (h : process_endLine_point e oid onm reg = some r) :
    regGet r tag id = regGet reg tag id := by
  unfold process_endLine_point at h
  by_cases hb : truthy (elemAttr e "basePoint") = true
  · rw [if_pos hb] at h
    cases hl : lookup_name_by_id (elemAttr e "basePoint") reg with
    | none => rw [hl] at h; cases h
    | some tn =>
      obtain ⟨t, bn⟩ := tn
      rw [hl] at h
      simp only [] at h
      by_cases hbn : truthy bn = true
      · rw [if_pos hbn] at h
        cases h
        exact regGet_add_ne _ _ _ _ _ _ _ (Or.inl htag)
      · rw [if_neg hbn] at h
        cases h
        rfl
  · rw [if_neg hb] at h
    cases h
    rfl

theorem process_lineIntersectAxis_preserves (e : Elem) (oid onm : Val) (reg r : Registry)
    (tag id : Val) (htag : tag ≠ some "line")
    (h : process_lineIntersectAxis_point e oid onm reg = some r) :
    regGet r tag id = regGet reg tag id := by
  unfold process_lineIntersectAxis_point at h
  by_cases hb : truthy (elemAttr e "basePoint") = true
  · rw [if_pos hb] at h
    cases hl : lookup_name_by_id (elemAttr e "basePoint") reg with
    | none => rw [hl] at h; cases h
    | some tn =>
      obtain ⟨t, bn⟩ := tn
      rw [hl] at h
      simp only [] at h
      by_cases hbn : truthy bn = true
      · rw [if_pos hbn] at h
        cases h
        exact regGet_add_ne _ _ _ _ _ _ _ (Or.inl htag)
      · rw [if_neg hbn] at h
        cases h
        rfl
  · rw [if_neg hb] at h
    cases h
    rfl

theorem intersect_with_stem_preserves (e : Elem) (oid onm : Val) (reg r : Registry)
    (stem : String) (tag id : Val) (htag : tag ≠ some "line")
    (h : intersect_with_stem e oid onm reg stem = some r) :
    regGet r tag id = regGet reg tag id := by
  unfold intersect_with_stem at h
  by_cases hb : (truthy (elemAttr e "firstPoint") && truthy (elemAttr e "secondPoint")) = true
  · rw [if_pos hb] at h
    cases hl1 : lookup_name_by_id (elemAttr e "firstPoint") reg with
    | none => rw [hl1] at h; cases h
    | some tn1 =>
      cases hl2 : lookup_name_by_id (elemAttr e "secondPoint") reg with
      | none => rw [hl1, hl2] at h; cases h
      | some tn2 =>
        obtain ⟨t1, n1⟩ := tn1
        obtain ⟨t2, n2⟩ := tn2
        rw [hl1, hl2] at h
        simp only [] at h
        by_cases hn : (truthy n1 && truthy n2) = true
        · rw [if_pos hn] at h
          cases h
          rw [regGet_add_ne _ _ _ _ _ _ _ (Or.inl htag)]
          exact regGet_add_ne _ _ _ _ _ _ _ (Or.inl htag)
        · rw [if_neg hn] at h
          cases h
          rfl
  · rw [if_neg hb] at h
    cases h
    rfl

theorem process_intersectXY_preserves (e : Elem) (oid onm : Val) (reg r : Registry)
    (tag id : Val) (htag : tag ≠ some "line")
    (h : process_intersectXY_alongLinepoint e oid onm reg = some r) :
    regGet r tag id = regGet reg tag id := by
  unfold process_intersectXY_alongLinepoint at h
  by_cases h1 : elemAttr e "type" = some "intersectXY"
  · rw [if_pos h1] at h
    exact intersect_with_stem_preserves _ _ _ _ _ _ _ _ htag h
  · rw [if_neg h1] at h
    by_cases h2 : elemAttr e "type" = some "alongLine"
    · rw [if_pos h2] at h
      exact intersect_with_stem_preserves _ _ _ _ _ _ _ _ htag h
    · rw [if_neg h2] at h
      cases h

theorem point_synthesis_preserves (e : Elem) (oid onm : Val) (reg r : Registry)
    (tag id : Val) (htag : tag ≠ some "line")
    (h : point_synthesis e oid onm reg = some r) :
    regGet r tag id = regGet reg tag id := by
  unfold point_synthesis at h
  split at h
  · exact process_intersectXY_preserves _ _ _ _ _ _ _ htag h
  · split at h
    · exact process_endLine_preserves _ _ _ _ _ _ _ htag h
    · split at h
      · exact process_lineIntersectAxis_preserves _ _ _ _ _ _ _ htag h
      · cases h; rfl

theorem str_append_assoc3 (x a b : String) : x ++ a ++ b = x ++ (a ++ b) := by
  apply str_data_eq
  rw [String.data_append, String.data_append, String.data_append, String.data_append,
      List.append_assoc]

theorem str_glue (x a b c : String) (h : a ++ b = c) : x ++ a ++ b = x ++ c := by
  rw [str_append_assoc3, h]

theorem dictSet2_length_new {K V : Type} [DecidableEq K] (d : List (K × V)) (k1 k2 : K)
    (v1 v2 : V) (h1 : dictGet d k1 = none) (h2 : dictGet d k2 = none) (hne : k2 ≠ k1) :
    (dictSet (dictSet d k1 v1) k2 v2).length = d.length + 2 := by
  rw [dictSet_length_new (dictSet d k1 v1) k2 v2
        (by rw [dictGet_dictSet_ne _ _ _ _ hne]; exact h2),
      dictSet_length_new d k1 v1 h1]

/-- Characterization of a successful two-line synthesis by
`intersect_with_stem`: the line map grows by exactly two records, the two new
records carry the claimed ids and names, and every other registry location is
untouched. -/
theorem intersect_with_stem_spec (e : Elem) (oid onm : Val) (reg r : Registry) (stem : String)
    (f s t1 t2 n1 n2 : String)
    (hf : elemAttr e "firstPoint" = some f) (hfne : f ≠ "")
    (hs : elemAttr e "secondPoint" = some s) (hsne : s ≠ "")
    (hl1 : lookup_name_by_id (some f) reg = some (t1, some n1)) (hn1 : n1 ≠ "")
    (hl2 : lookup_name_by_id (some s) reg = some (t2, some n2)) (hn2 : n2 ≠ "")
    (hfresh1 : regGet reg (some "line") (some (stem ++ "1")) = none)
    (hfresh2 : regGet reg (some "line") (some (stem ++ "2")) = none)
    (h : intersect_with_stem e oid onm reg stem = some r) :
    (getTagMap r (some "line")).length = (getTagMap reg (some "line")).length + 2 ∧
    registered_name r (some "line") (some (stem ++ "1")) =
      some (some ("Line_" ++ n1 ++ "_" ++ pyStr onm)) ∧
    registered_name r (some "line") (some (stem ++ "2")) =
      some (some ("Line_" ++ n2 ++ "_" ++ pyStr onm)) ∧
    (∀ tag id, tag ≠ some "line" ∨ (id ≠ some (stem ++ "1") ∧ id ≠ some (stem ++ "2")) →
      regGet r tag id = regGet reg tag id) := by
  have hne21 : (some (stem ++ "2") : Val) ≠ some (stem ++ "1") := by
    intro hc
    exact str_append_one_ne_two stem (Option.some.inj hc).symm
  have hne12 : (some (stem ++ "1") : Val) ≠ some (stem ++ "2") := by
    intro hc
    exact str_append_one_ne_two stem (Option.some.inj hc)
  unfold intersect_with_stem at h
  rw [hf, hs] at h
  rw [if_pos (by simp [truthy, hfne, hsne])] at h
  rw [hl1, hl2] at h
  simp only [] at h
  rw [if_pos (by simp [truthy, hn1, hn2])] at h
  cases h
  refine ⟨?_, ?_, ?_, ?_⟩
  · rw [getTagMap_add_self, getTagMap_add_self]
    simp only [regGet] at hfresh1 hfresh2
    exact dictSet2_length_new _ _ _ _ _ hfresh1 hfresh2 hne21
  · rw [registered_name, regGet_add_ne _ _ _ _ _ _ _ (Or.inr hne12), regGet_add_self]
    simp [add_rec_name, pyStr]
  · rw [registered_name, regGet_add_self]
    simp [add_rec_name, pyStr]
  · intro tag id hcond
    rcases hcond with htag | ⟨hid1, hid2⟩
    · rw [regGet_add_ne _ _ _ _ _ _ _ (Or.inl htag)]
      exact regGet_add_ne _ _ _ _ _ _ _ (Or.inl htag)
    · rw [regGet_add_ne _ _ _ _ _ _ _ (Or.inr hid2)]
      exact regGet_add_ne _ _ _ _ _ _ _ (Or.inr hid1)

/-- Claim C7: the implicit-line synthesis counts and records.
Part 1: an endLine point with a resolvable base point synthesizes exactly one
implicit line, registered under tag 'line' with id Line_endLine_<base>_<id>;
every other registry location is untouched.
Part 2: the same for a lineIntersectAxis point, id stem Line_lineIntersectAxis_.
Part 3: an intersectXY point with two resolvable point references synthesizes
exactly two implicit lines with ids Line_intersectXY_<thisId>_1 and _2 and
names Line_<firstName>_<thisName> and Line_<secondName>_<thisName>.
Part 4: the same for an alongLine point with the Line_alongLine_ id stem. -/
theorem point_synthesis_counts :
    (∀ (e : Elem) (oid onm : Val) (reg r : Registry) (b bt bn : String),
       elemAttr e "type" = some "endLine" →
       elemAttr e "basePoint" = some b → b ≠ "" →
       lookup_name_by_id (some b) reg = some (bt, some bn) → bn ≠ "" →
       regGet reg (some "line") (some ("Line_endLine_" ++ b ++ "_" ++ pyStr oid)) = none →
       point_synthesis e oid onm reg = some r →
       (getTagMap r (some "line")).length = (getTagMap reg (some "line")).length + 1 ∧
       registered_name r (some "line") (some ("Line_endLine_" ++ b ++ "_" ++ pyStr oid)) =
         some (some ("Line_" ++ bn ++ "_" ++ pyStr onm)) ∧
       (∀ tag id, tag ≠ some "line" ∨ id ≠ some ("Line_endLine_" ++ b ++ "_" ++ pyStr oid) →
         regGet r tag id = regGet reg tag id)) ∧
    (∀ (e : Elem) (oid onm : Val) (reg r : Registry) (b bt bn : String),
       elemAttr e "type" = some "lineIntersectAxis" →
       elemAttr e "basePoint" = some b → b ≠ "" →
       lookup_name_by_id (some b) reg = some (bt, some bn) → bn ≠ "" →
       regGet reg (some "line")
         (some ("Line_lineIntersectAxis_" ++ b ++ "_" ++ pyStr oid)) = none →
       point_synthesis e oid onm reg = some r →
       (getTagMap r (some "line")).length = (getTagMap reg (some "line")).length + 1 ∧
       registered_name r (some "line")
           (some ("Line_lineIntersectAxis_" ++ b ++ "_" ++ pyStr oid)) =
         some (some ("Line_" ++ bn ++ "_" ++ pyStr onm)) ∧
       (∀ tag id,
         tag ≠ some "line" ∨ id ≠ some ("Line_lineIntersectAxis_" ++ b ++ "_" ++ pyStr oid) →
         regGet r tag id = regGet reg tag id)) ∧
    (∀ (e : Elem) (onm : Val) (reg r : Registry) (tid f s t1 t2 n1 n2 : String),
       elemAttr e "type" = some "intersectXY" →
       elemAttr e "firstPoint" = some f → f ≠ "" →
       elemAttr e "secondPoint" = some s → s ≠ "" →
       lookup_name_by_id (some f) reg = some (t1, some n1) → n1 ≠ "" →
       lookup_name_by_id (some s) reg = some (t2, some n2) → n2 ≠ "" →
       regGet reg (some "line") (some ("Line_intersectXY_" ++ tid ++ "_1")) = none →
       regGet reg (some "line") (some ("Line_intersectXY_" ++ tid ++ "_2")) = none →
       point_synthesis e (some tid) onm reg = some r →
       (getTagMap r (some "line")).length = (getTagMap reg (some "line")).length + 2 ∧
       registered_name r (some "line") (some ("Line_intersectXY_" ++ tid ++ "_1")) =
         some (some ("Line_" ++ n1 ++ "_" ++ pyStr onm)) ∧
       registered_name r (some "line") (some ("Line_intersectXY_" ++ tid ++ "_2")) =
         some (some ("Line_" ++ n2 ++ "_" ++ pyStr onm))) ∧
    (∀ (e : Elem) (onm : Val) (reg r : Registry) (tid f s t1 t2 n1 n2 : String),
       elemAttr e "type" = some "alongLine" →
       elemAttr e "firstPoint" = some f → f ≠ "" →
       elemAttr e "secondPoint" = some s → s ≠ "" →
       lookup_name_by_id (some f) reg = some (t1, some n1) → n1 ≠ "" →
       lookup_name_by_id (some s) reg = some (t2, some n2) → n2 ≠ "" →
       regGet reg (some "line") (some ("Line_alongLine_" ++ tid ++ "_1")) = none →
       regGet reg (some "line") (some ("Line_alongLine_" ++ tid ++ "_2")) = none →
       point_synthesis e (some tid) onm reg = some r →
       (getTagMap r (some "line")).length = (getTagMap reg (some "line")).length + 2 ∧
       registered_name r (some "line") (some ("Line_alongLine_" ++ tid ++ "_1")) =
         some (some ("Line_" ++ n1 ++ "_" ++ pyStr onm)) ∧
       registered_name r (some "line") (some ("Line_alongLine_" ++ tid ++ "_2")) =
         some (some ("Line_" ++ n2 ++ "_" ++ pyStr onm))) := by
  refine ⟨?_, ?_, ?_, ?_⟩
  · intro e oid onm reg r b bt bn ht hb hbne hl hbn hfresh h
    unfold point_synthesis at h
    rw [ht] at h
    rw [if_neg (by simp)] at h
    rw [if_pos rfl] at h
    unfold process_endLine_point at h
    rw [hb] at h
    rw [if_pos (by simp [truthy, hbne])] at h
    rw [hl] at h
    simp only [] at h
    rw [if_pos (by simp [truthy, hbn])] at h
    cases h
    simp only [pyStr]
    refine ⟨?_, ?_, ?_⟩
    · rw [getTagMap_add_self]
      simp only [regGet] at hfresh
      exact dictSet_length_new _ _ _ hfresh
    · rw [registered_name_add]
    · intro tag id hcond
      exact regGet_add_ne _ _ _ _ _ _ _ hcond
  · intro e oid onm reg r b bt bn ht hb hbne hl hbn hfresh h
    unfold point_synthesis at h
    rw [ht] at h
    rw [if_neg (by simp)] at h
    rw [if_neg (by simp)] at h
    rw [if_pos rfl] at h
    unfold process_lineIntersectAxis_point at h
    rw [hb] at h
    rw [if_pos (by simp [truthy, hbne])] at h
    rw [hl] at h
    simp only [] at h
    rw [if_pos (by simp [truthy, hbn])] at h
    cases h
    simp only [pyStr]
    refine ⟨?_, ?_, ?_⟩
    · rw [getTagMap_add_self]
      simp only [regGet] at hfresh
      exact dictSet_length_new _ _ _ hfresh
    · rw [registered_name_add]
    · intro tag id hcond
      exact regGet_add_ne _ _ _ _ _ _ _ hcond
  · intro e onm reg r tid f s t1 t2 n1 n2 ht hf hfne hs hsne hl1 hn1 hl2 hn2 hfr1 hfr2 h
    unfold point_synthesis at h
    rw [ht] at h
    rw [if_pos (Or.inl rfl)] at h
    unfold process_intersectXY_alongLinepoint at h
    rw [ht] at h
    rw [if_pos rfl] at h
    simp only [pyStr] at h
    have hglue1 : "Line_intersectXY_" ++ tid ++ "_" ++ "1" = "Line_intersectXY_" ++ tid ++ "_1" :=
      str_glue _ _ _ _ (by decide)
    have hglue2 : "Line_intersectXY_" ++ tid ++ "_" ++ "2" = "Line_intersectXY_" ++ tid ++ "_2" :=
      str_glue _ _ _ _ (by decide)
    have hspec := intersect_with_stem_spec e (some tid) onm reg r
      ("Line_intersectXY_" ++ tid ++ "_") f s t1 t2 n1 n2 hf hfne hs hsne hl1 hn1 hl2 hn2
      (by rw [hglue1]; exact hfr1) (by rw [hglue2]; exact hfr2) h
    rw [hglue1, hglue2] at hspec
    exact ⟨hspec.1, hspec.2.1, hspec.2.2.1⟩
  · intro e onm reg r tid f s t1 t2 n1 n2 ht hf hfne hs hsne hl1 hn1 hl2 hn2 hfr1 hfr2 h
    unfold point_synthesis at h
    rw [ht] at h
    rw [if_pos (Or.inr rfl)] at h
    unfold process_intersectXY_alongLinepoint at h
    rw [ht] at h
    rw [if_neg (by simp)] at h
    rw [if_pos rfl] at h
    simp only [pyStr] at h
    have hglue1 : "Line_alongLine_" ++ tid ++ "_" ++ "1" = "Line_alongLine_" ++ tid ++ "_1" :=
      str_glue _ _ _ _ (by decide)
    have hglue2 : "Line_alongLine_" ++ tid ++ "_" ++ "2" = "Line_alongLine_" ++ tid ++ "_2" :=
      str_glue _ _ _ _ (by decide)
    have hspec := intersect_with_stem_spec e (some tid) onm reg r
      ("Line_alongLine_" ++ tid ++ "_") f s t1 t2 n1 n2 hf hfne hs hsne hl1 hn1 hl2 hn2
      (by rw [hglue1]; exact hfr1) (by rw [hglue2]; exact hfr2) h
    rw [hglue1, hglue2] at hspec
    exact ⟨hspec.1, hspec.2.1, hspec.2.2.1⟩

/-- Witness for the synthesis-count theorem: part 1 applied to a concrete
endLine point over a registry holding one point named A (one line synthesized),
and part 3 applied to a concrete intersectXY point over a registry holding
points named A and B (two lines synthesized, with the claimed names). -/
theorem point_synthesis_counts_witness :
    (∃ r, point_synthesis (Elem.mk "point" [("id", "9"), ("type", "endLine"), ("basePoint", "1")] [])
        (some "9") (some "P")
        [(some "point", [(some "1", [("id", some "1"), ("name", some "A")])])] = some r ∧
      (getTagMap r (some "line")).length =
        (getTagMap [(some "point", [(some "1", [("id", some "1"), ("name", some "A")])])]
          (some "line")).length + 1) ∧
    (∃ r, point_synthesis
        (Elem.mk "point"
          [("id", "9"), ("type", "intersectXY"), ("firstPoint", "1"), ("secondPoint", "2")] [])
        (some "9") (some "P")
        [(some "point",
          [(some "1", [("id", some "1"), ("name", some "A")]),
           (some "2", [("id", some "2"), ("name", some "B")])])] = some r ∧
      (getTagMap r (some "line")).length = 2 ∧
      registered_name r (some "line") (some ("Line_intersectXY_" ++ "9" ++ "_1")) =
        some (some ("Line_" ++ "A" ++ "_" ++ "P")) ∧
      registered_name r (some "line") (some ("Line_intersectXY_" ++ "9" ++ "_2")) =
        some (some ("Line_" ++ "B" ++ "_" ++ "P"))) := by
  constructor
  · obtain ⟨h1, h2, h3⟩ := point_synthesis_counts.1
      (Elem.mk "point" [("id", "9"), ("type", "endLine"), ("basePoint", "1")] [])
      (some "9") (some "P")
      [(some "point", [(some "1", [("id", some "1"), ("name", some "A")])])] _
      "1" "point" "A" rfl rfl (by decide) (by decide) (by decide) (by decide) rfl
    exact ⟨_, rfl, h1⟩
  · obtain ⟨h1, h2, h3⟩ := point_synthesis_counts.2.2.1
      (Elem.mk "point"
        [("id", "9"), ("type", "intersectXY"), ("firstPoint", "1"), ("secondPoint", "2")] [])
      (some "P")
      [(some "point",
        [(some "1", [("id", some "1"), ("name", some "A")]),
         (some "2", [("id", some "2"), ("name", some "B")])])] _
      "9" "1" "2" "point" "point" "A" "B"
      rfl rfl (by decide) rfl (by decide) (by decide) (by decide) (by decide) (by decide)
      (by decide) (by decide) rfl
    refine ⟨_, rfl, ?_, ?_, ?_⟩
    · rw [h1]; rfl
    · exact h2
    · exact h3

theorem lookupSourceItems_length (items : List Elem) (reg : Registry)
    (l : List (String × Val)) (h : lookupSourceItems items reg = some l) :
    l.length = items.length := by
  induction items generalizing l with
  | nil =>
    simp only [lookupSourceItems] at h
    cases h
    rfl
  | cons it rest ih =>
    simp only [lookupSourceItems] at h
    cases hl : lookup_name_by_id (elemAttr it "idObject") reg with
    | none => rw [hl] at h; cases h
    | some tn =>
      rw [hl] at h
      cases hr : lookupSourceItems rest reg with
      | none => rw [hr] at h; cases h
      | some l' =>
        rw [hr] at h
        simp only [Option.map_some] at h
        cases h
        simp [ih l' hr]

/-- Characterization of a successful destination-item expansion starting at
index `i`: the run succeeds, destination `j` is registered under
`src_types[i+j]` with the positional name, the `op` attribute, and no
`idObject` attribute, and every registry location whose id key is not one of
the destination ids is untouched. -/
theorem process_dest_items_spec (st : List String) (sn : List Val) (sfx oid : Val) :
    ∀ (items : List Elem) (i : Nat) (reg : Registry),
      i + items.length ≤ st.length → i + items.length ≤ sn.length →
      (items.map (fun it => elemAttr it "idObject")).Nodup →
      ∃ reg', process_dest_items st sn sfx oid items i reg = some reg' ∧
        (∀ j (hj : j < items.length), ∃ dt nmv rc,
          st[i + j]? = some dt ∧ sn[i + j]? = some nmv ∧
          regGet reg' (some dt) (elemAttr (items.get ⟨j, hj⟩) "idObject") = some rc ∧
          dictGet rc "name" = some (some (dest_name_of nmv sfx)) ∧
          dictGet rc "op" = some oid ∧
          dictGet rc "idObject" = none) ∧
        (∀ tag id, ¬ id ∈ items.map (fun it => elemAttr it "idObject") →
          regGet reg' tag id = regGet reg tag id) := by
  intro items
  induction items with
  | nil =>
    intro i reg _ _ _
    exact ⟨reg, rfl, fun j hj => absurd hj (by simp), fun tag id _ => rfl⟩
  | cons item rest ih =>
    intro i reg hst hsn hnodup
    have hi_st : i < st.length := by
      simp only [List.length_cons] at hst
      omega
    have hi_sn : i < sn.length := by
      simp only [List.length_cons] at hsn
      omega
    have hdt : st[i]? = some st[i] := List.getElem?_eq_getElem hi_st
    have hdn : sn[i]? = some sn[i] := List.getElem?_eq_getElem hi_sn
    rw [List.map_cons, List.nodup_cons] at hnodup
    obtain ⟨hhead, htail⟩ := hnodup
    obtain ⟨reg'', hrun, hrecs, hpres⟩ := ih (i + 1)
      (add_to_objects_by_type (some st[i]) (elemAttr item "idObject")
        (dictPop (dictSet (create_filtered_element item (elemAttr item "idObject")
          (some (dest_name_of sn[i] sfx))) "op" oid) "idObject")
        (some (dest_name_of sn[i] sfx)) reg)
      (by simp only [List.length_cons] at hst; omega)
      (by simp only [List.length_cons] at hsn; omega)
      htail
    refine ⟨reg'', ?_, ?_, ?_⟩
    · simp only [process_dest_items, hdt, hdn]
      exact hrun
    · intro j hj
      match j with
      | 0 =>
        refine ⟨st[i], sn[i],
          add_rec (dictPop (dictSet (create_filtered_element item (elemAttr item "idObject")
              (some (dest_name_of sn[i] sfx))) "op" oid) "idObject")
            (some (dest_name_of sn[i] sfx)),
          by simpa using hdt, by simpa using hdn, ?_, ?_, ?_, ?_⟩
        · rw [show ((item :: rest).get ⟨0, hj⟩) = item from rfl]
          rw [hpres _ _ hhead, regGet_add_self]
        · exact add_rec_name _ _
        · rw [add_rec_other _ _ "op" (by decide)]
          rw [if_neg (by decide)]
          rw [dictGet_dictPop]
          rw [if_neg (by decide)]
          exact dictGet_dictSet_self _ _ _
        · rw [add_rec_other _ _ "idObject" (by decide)]
          rw [if_neg (by decide)]
          rw [dictGet_dictPop]
          rw [if_pos rfl]
      | Nat.succ j' =>
        have hj' : j' < rest.length := by
          simp only [List.length_cons] at hj
          omega
        obtain ⟨dt, nmv, rc, h1, h2, h3, h4, h5, h6⟩ := hrecs j' hj'
        refine ⟨dt, nmv, rc, ?_, ?_, h3, h4, h5, h6⟩
        · rw [show i + (j' + 1) = (i + 1) + j' by omega]
          exact h1
        · rw [show i + (j' + 1) = (i + 1) + j' by omega]
          exact h2
    · intro tag id hid
      simp only [List.map_cons, List.mem_cons] at hid
      push_neg at hid
      rw [hpres tag id hid.2]
      exact regGet_add_ne _ _ _ _ _ _ _ (Or.inr hid.1)

/-- When the destination items outrun the source lists, the positional access
`source_types[i]` fails: the run crashes (IndexError, modelled as `none`). -/
theorem process_dest_items_overrun (st : List String) (sn : List Val) (sfx oid : Val) :
    ∀ (items : List Elem) (i : Nat) (reg : Registry),
      items ≠ [] → st.length < i + items.length →
      process_dest_items st sn sfx oid items i reg = none := by
  intro items
  induction items with
  | nil => intro i reg hne _; exact absurd rfl hne
  | cons item rest ih =>
    intro i reg _ hlen
    cases hdt : st[i]? with
    | none => simp only [process_dest_items, hdt]
    | some dt =>
      have hi : i < st.length := by
        by_contra hc
        rw [List.getElem?_eq_none (by omega)] at hdt
        cases hdt
      cases hdn : sn[i]? with
      | none => simp only [process_dest_items, hdt, hdn]
      | some dn =>
        simp only [process_dest_items, hdt, hdn]
        by_cases hrest : rest = []
        · subst hrest
          simp only [List.length_cons, List.length_nil] at hlen
          omega
        · exact ih (i + 1) _ hrest (by simp only [List.length_cons] at hlen ⊢; omega)

/-- Claim C4: for an operation element with one source list and one destination
list of equal length whose source ids all resolve, destination item i is
registered under the registry tag of source i's resolved type, named
source_name_i followed by the operation suffix, carrying an `op` attribute
equal to the operation's id, with the raw `idObject` reference attribute
removed; the pairing is strictly positional. -/
theorem operation_expansion_positional
    (e : Elem) (reg : Registry) (oid suf : String) (srcEl dstEl : Elem)
    (S D : List Elem) (pairs : List (String × String))
    (hid : elemAttr e "id" = some oid)
    (hsuf : elemAttr e "suffix" = some suf)
    (hsrcF : e.children.filter (fun c => c.tag = "source") = [srcEl])
    (hdstF : e.children.filter (fun c => c.tag = "destination") = [dstEl])
    (hS : srcEl.children.filter (fun c => c.tag = "item") = S)
    (hD : dstEl.children.filter (fun c => c.tag = "item") = D)
    (hlook : lookupSourceItems S (op_self_reg e reg) =
      some (pairs.map (fun p => (p.1, some p.2))))
    (hlen : D.length = S.length)
    (hnodup : (D.map (fun it => elemAttr it "idObject")).Nodup) :
    ∃ reg', categorize_operation e reg = some reg' ∧
      ∀ i (hi : i < D.length), ∃ dt dn rc,
        pairs[i]? = some (dt, dn) ∧
        regGet reg' (some dt) (elemAttr (D.get ⟨i, hi⟩) "idObject") = some rc ∧
        dictGet rc "name" = some (some (dn ++ suf)) ∧
        dictGet rc "op" = some (some oid) ∧
        dictGet rc "idObject" = none := by
  have hplen : pairs.length = S.length := by
    have := lookupSourceItems_length S (op_self_reg e reg) _ hlook
    simpa using this
  have hsrcitems : op_src_items e = S := by
    simp [op_src_items, hsrcF, hS]
  have hdests : op_dest_children e = [dstEl] := hdstF
  obtain ⟨reg'', hrun, hrecs, _⟩ := process_dest_items_spec
    ((pairs.map (fun p => (p.1, some p.2))).map Prod.fst)
    ((pairs.map (fun p => (p.1, some p.2))).map Prod.snd)
    (elemAttr e "suffix") (elemAttr e "id") D 0 (op_self_reg e reg)
    (by simp [hlen, hplen]) (by simp [hlen, hplen]) hnodup
  refine ⟨reg'', ?_, ?_⟩
  · simp only [categorize_operation, hsrcitems, hlook, hdests, process_dest_lists, hD]
    rw [hrun]
  · intro i hi
    obtain ⟨dt, nmv, rc, h1, h2, h3, h4, h5, h6⟩ := hrecs i hi
    rw [List.getElem?_map, List.getElem?_map] at h1
    rw [List.getElem?_map, List.getElem?_map] at h2
    rw [Nat.zero_add] at h1 h2
    cases hp : pairs[i]? with
    | none => rw [hp] at h1; cases h1
    | some pr =>
      rw [hp] at h1 h2
      simp only [Option.map_some'] at h1 h2
      refine ⟨pr.1, pr.2, rc, rfl, ?_, ?_, ?_, h6⟩
      · rw [← (Option.some.inj h1)] at h3
        exact h3
      · rw [h4, ← (Option.some.inj h2)]
        simp [dest_name_of, pyStr, hsuf]
      · rw [h5, hid]

/-- Witness for the operation-expansion theorem: an operation with suffix "2",
sources resolving to points P1 and P2, and two destination items; the theorem
yields destination "7" registered under tag 'point' with name "P12", an op
attribute holding the operation id "99", and no idObject attribute. -/
theorem operation_expansion_positional_witness :
    ∃ reg' rc, categorize_operation
        (Elem.mk "operation" [("id", "99"), ("type", "rotation"), ("suffix", "2")]
          [Elem.mk "source" [] [Elem.mk "item" [("idObject", "1")] [],
                                Elem.mk "item" [("idObject", "2")] []],
           Elem.mk "destination" [] [Elem.mk "item" [("idObject", "7")] [],
                                     Elem.mk "item" [("idObject", "8")] []]])
        [(some "point",
          [(some "1", [("id", some "1"), ("name", some "P1")]),
           (some "2", [("id", some "2"), ("name", some "P2")])])] = some reg' ∧
      regGet reg' (some "point") (some "7") = some rc ∧
      dictGet rc "name" = some (some "P12") ∧
      dictGet rc "op" = some (some "99") ∧
      dictGet rc "idObject" = none := by
  obtain ⟨reg', hrun, hrecs⟩ := operation_expansion_positional
    (Elem.mk "operation" [("id", "99"), ("type", "rotation"), ("suffix", "2")]
      [Elem.mk "source" [] [Elem.mk "item" [("idObject", "1")] [],
                            Elem.mk "item" [("idObject", "2")] []],
       Elem.mk "destination" [] [Elem.mk "item" [("idObject", "7")] [],
                                 Elem.mk "item" [("idObject", "8")] []]])
    [(some "point",
      [(some "1", [("id", some "1"), ("name", some "P1")]),
       (some "2", [("id", some "2"), ("name", some "P2")])])]
    "99" "2"
    (Elem.mk "source" [] [Elem.mk "item" [("idObject", "1")] [],
                          Elem.mk "item" [("idObject", "2")] []])
    (Elem.mk "destination" [] [Elem.mk "item" [("idObject", "7")] [],
                               Elem.mk "item" [("idObject", "8")] []])
    [Elem.mk "item" [("idObject", "1")] [], Elem.mk "item" [("idObject", "2")] []]
    [Elem.mk "item" [("idObject", "7")] [], Elem.mk "item" [("idObject", "8")] []]
    [("point", "P1"), ("point", "P2")]
    rfl rfl rfl rfl rfl rfl rfl rfl (by decide)
  obtain ⟨dt, dn, rc, hp, hr, hn, ho, hio⟩ := hrecs 0 (by decide)
  have hdtdn : dt = "point" ∧ dn = "P1" := by
    have hp' : some ("point", "P1") = some (dt, dn) := hp
    have := Option.some.inj hp'
    exact ⟨congrArg Prod.fst this.symm, congrArg Prod.snd this.symm⟩
  obtain ⟨hdt, hdn⟩ := hdtdn
  subst hdt
  subst hdn
  refine ⟨reg', rc, hrun, hr, ?_, ho, hio⟩
  rw [hn]
  rw [show ("P1" ++ "2" : String) = "P12" by decide]

/-- Claim C5, counterexample: an operation whose source list has two items but
whose destination list has only one is expanded without any error: the run
returns normally (no MisalignedOperationLists, which the code never produces)
and destination "7" IS registered, so "surfaces an error and registers no
destination object" is false on this input. -/
theorem operation_shorter_destination_registers :
    ∃ r, categorize_operation
        (Elem.mk "operation" [("id", "99"), ("type", "rotation"), ("suffix", "2")]
          [Elem.mk "source" [] [Elem.mk "item" [("idObject", "1")] [],
                                Elem.mk "item" [("idObject", "2")] []],
           Elem.mk "destination" [] [Elem.mk "item" [("idObject", "7")] []]])
        [(some "point",
          [(some "1", [("id", some "1"), ("name", some "P1")]),
           (some "2", [("id", some "2"), ("name", some "P2")])])] = some r ∧
      (regGet r (some "point") (some "7")).isSome = true :=
  ⟨_, rfl, by decide⟩

/-- Claim C5, amended: `categorize_operation` performs no length check at all.
When the destination item list is shorter than (or equal to) the source list,
every destination item is silently registered against the corresponding source
item and no error of any kind is surfaced. When the destination list is longer
than the source list, the run aborts with an uncaught IndexError on the
positional access (modelled as `none`); no MisalignedOperationLists diagnostic
exists anywhere in the code. -/
theorem operation_no_length_check :
    (∀ (e : Elem) (reg : Registry) (srcEl dstEl : Elem) (S D : List Elem)
       (pairs : List (String × String)),
       e.children.filter (fun c => c.tag = "source") = [srcEl] →
       e.children.filter (fun c => c.tag = "destination") = [dstEl] →
       srcEl.children.filter (fun c => c.tag = "item") = S →
       dstEl.children.filter (fun c => c.tag = "item") = D →
       lookupSourceItems S (op_self_reg e reg) =
         some (pairs.map (fun p => (p.1, some p.2))) →
       D.length ≤ S.length →
       (D.map (fun it => elemAttr it "idObject")).Nodup →
       ∃ reg', categorize_operation e reg = some reg' ∧
         ∀ j (hj : j < D.length), ∃ dt,
           (pairs[j]?).map Prod.fst = some dt ∧
           (regGet reg' (some dt) (elemAttr (D.get ⟨j, hj⟩) "idObject")).isSome = true) ∧
    (∀ (e : Elem) (reg : Registry) (srcEl dstEl : Elem) (S D : List Elem)
       (pairs : List (String × String)),
       e.children.filter (fun c => c.tag = "source") = [srcEl] →
       e.children.filter (fun c => c.tag = "destination") = [dstEl] →
       srcEl.children.filter (fun c => c.tag = "item") = S →
       dstEl.children.filter (fun c => c.tag = "item") = D →
       lookupSourceItems S (op_self_reg e reg) =
         some (pairs.map (fun p => (p.1, some p.2))) →
       S.length < D.length →
       categorize_operation e reg = none) := by
  constructor
  · intro e reg srcEl dstEl S D pairs hsrcF hdstF hS hD hlook hlen hnodup
    have hplen : pairs.length = S.length := by
      have := lookupSourceItems_length S (op_self_reg e reg) _ hlook
      simpa using this
    have hsrcitems : op_src_items e = S := by
      simp [op_src_items, hsrcF, hS]
    obtain ⟨reg'', hrun, hrecs, _⟩ := process_dest_items_spec
      ((pairs.map (fun p => (p.1, some p.2))).map Prod.fst)
      ((pairs.map (fun p => (p.1, some p.2))).map Prod.snd)
      (elemAttr e "suffix") (elemAttr e "id") D 0 (op_self_reg e reg)
      (by simp; omega) (by simp; omega) hnodup
    refine ⟨reg'', ?_, ?_⟩
    · simp only [categorize_operation, hsrcitems, hlook, op_dest_children, hdstF,
        process_dest_lists, hD]
      rw [hrun]
    · intro j hj
      obtain ⟨dt, nmv, rc, h1, h2, h3, _, _, _⟩ := hrecs j hj
      rw [List.getElem?_map, List.getElem?_map] at h1
      rw [Nat.zero_add] at h1
      refine ⟨dt, ?_, by rw [h3]; rfl⟩
      cases hp : pairs[j]? with
      | none => rw [hp] at h1; simp at h1
      | some pr =>
        rw [hp] at h1
        simp only [Option.map_some'] at h1 ⊢
        exact h1
  · intro e reg srcEl dstEl S D pairs hsrcF hdstF hS hD hlook hlen
    have hplen : pairs.length = S.length := by
      have := lookupSourceItems_length S (op_self_reg e reg) _ hlook
      simpa using this
    have hsrcitems : op_src_items e = S := by
      simp [op_src_items, hsrcF, hS]
    have hDne : D ≠ [] := by
      intro hc
      rw [hc] at hlen
      simp at hlen
    simp only [categorize_operation, hsrcitems, hlook, op_dest_children, hdstF,
      process_dest_lists, hD]
    rw [process_dest_items_overrun _ _ _ _ D 0 _ hDne (by simp; omega)]

/-- Witness for the no-length-check theorem: the shorter-destination part at a
concrete 2-source/1-destination operation (destination "7" gets registered, no
error), and the longer-destination part at a concrete 1-source/2-destination
operation (the run crashes). -/
theorem operation_no_length_check_witness :
    (∃ reg', categorize_operation
        (Elem.mk "operation" [("id", "99"), ("type", "rotation"), ("suffix", "2")]
          [Elem.mk "source" [] [Elem.mk "item" [("idObject", "1")] [],
                                Elem.mk "item" [("idObject", "2")] []],
           Elem.mk "destination" [] [Elem.mk "item" [("idObject", "8")] []]])
        [(some "point",
          [(some "1", [("id", some "1"), ("name", some "P1")]),
           (some "2", [("id", some "2"), ("name", some "P2")])])] = some reg' ∧
      (regGet reg' (some "point") (some "8")).isSome = true) ∧
    categorize_operation
        (Elem.mk "operation" [("id", "99"), ("type", "rotation"), ("suffix", "2")]
          [Elem.mk "source" [] [Elem.mk "item" [("idObject", "1")] []],
           Elem.mk "destination" [] [Elem.mk "item" [("idObject", "7")] [],
                                     Elem.mk "item" [("idObject", "8")] []]])
        [(some "point",
          [(some "1", [("id", some "1"), ("name", some "P1")])])] = none := by
  constructor
  · obtain ⟨reg', hrun, hrecs⟩ := operation_no_length_check.1
      (Elem.mk "operation" [("id", "99"), ("type", "rotation"), ("suffix", "2")]
        [Elem.mk "source" [] [Elem.mk "item" [("idObject", "1")] [],
                              Elem.mk "item" [("idObject", "2")] []],
         Elem.mk "destination" [] [Elem.mk "item" [("idObject", "8")] []]])
      [(some "point",
        [(some "1", [("id", some "1"), ("name", some "P1")]),
         (some "2", [("id", some "2"), ("name", some "P2")])])]
      (Elem.mk "source" [] [Elem.mk "item" [("idObject", "1")] [],
                            Elem.mk "item" [("idObject", "2")] []])
      (Elem.mk "destination" [] [Elem.mk "item" [("idObject", "8")] []])
      [Elem.mk "item" [("idObject", "1")] [], Elem.mk "item" [("idObject", "2")] []]
      [Elem.mk "item" [("idObject", "8")] []]
      [("point", "P1"), ("point", "P2")]
      rfl rfl rfl rfl rfl (by decide) (by decide)
    obtain ⟨dt, h1, h2⟩ := hrecs 0 (by decide)
    have hdt : dt = "point" := by
      have h1' : some "point" = some dt := h1
      exact (Option.some.inj h1').symm
    subst hdt
    exact ⟨reg', hrun, h2⟩
  · exact operation_no_length_check.2
      (Elem.mk "operation" [("id", "99"), ("type", "rotation"), ("suffix", "2")]
        [Elem.mk "source" [] [Elem.mk "item" [("idObject", "1")] []],
         Elem.mk "destination" [] [Elem.mk "item" [("idObject", "7")] [],
                                   Elem.mk "item" [("idObject", "8")] []]])
      [(some "point",
        [(some "1", [("id", some "1"), ("name", some "P1")])])]
      (Elem.mk "source" [] [Elem.mk "item" [("idObject", "1")] []])
      (Elem.mk "destination" [] [Elem.mk "item" [("idObject", "7")] [],
                                 Elem.mk "item" [("idObject", "8")] []])
      [Elem.mk "item" [("idObject", "1")] []]
      [Elem.mk "item" [("idObject", "7")] [], Elem.mk "item" [("idObject", "8")] []]
      [("point", "P1")]
      rfl rfl rfl rfl rfl (by decide)

/-
Pipeline for the registry-wide non-empty-name theorem: every categorizer
either leaves a registry location untouched or stores a record whose name is a
non-empty string, and the document walk chains these steps.
-/

theorem preserved_refl (reg : Registry) : nonempty_names_preserved reg reg :=
  fun _ _ => Or.inl rfl

theorem bool_and_left {a b : Bool} (h : (a && b) = true) : a = true := by
  simp at h
  exact h.1

theorem bool_and_right {a b : Bool} (h : (a && b) = true) : b = true := by
  simp at h
  exact h.2

theorem preserved_trans {a b c : Registry}
    (h1 : nonempty_names_preserved a b) (h2 : nonempty_names_preserved b c) :
    nonempty_names_preserved a c := by
  intro tag id
  rcases h2 tag id with h | h
  · rcases h1 tag id with h' | h'
    · exact Or.inl (h.trans h')
    · obtain ⟨s, hs, hns⟩ := h'
      refine Or.inr ⟨s, ?_, hns⟩
      rw [registered_name] at hs ⊢
      rw [h]
      exact hs
  · exact Or.inr h

theorem add_preserved (t i : Val) (a : Rec) (s : String) (reg : Registry) (hs : s ≠ "") :
    nonempty_names_preserved reg (add_to_objects_by_type t i a (some s) reg) := by
  intro tag id
  by_cases h : tag = t ∧ id = i
  · obtain ⟨h1, h2⟩ := h
    subst h1
    subst h2
    exact Or.inr ⟨s, by rw [registered_name_add], hs⟩
  · left
    apply regGet_add_ne
    rcases not_and_or.mp h with h | h
    · exact Or.inl h
    · exact Or.inr h

theorem truthy_pyStr_ne (v : Val) (h : truthy v = true) : pyStr v ≠ "" := by
  cases v with
  | none => simp [truthy] at h
  | some s =>
    simp [truthy] at h
    simpa [pyStr] using h

theorem process_endLine_any_preserved (e : Elem) (oid onm : Val) (reg r : Registry)
    (h : process_endLine_point e oid onm reg = some r) :
    nonempty_names_preserved reg r := by
  unfold process_endLine_point at h
  by_cases hb : truthy (elemAttr e "basePoint") = true
  · rw [if_pos hb] at h
    cases hl : lookup_name_by_id (elemAttr e "basePoint") reg with
    | none => rw [hl] at h; cases h
    | some tn =>
      obtain ⟨t, bn⟩ := tn
      rw [hl] at h
      simp only [] at h
      by_cases hbn : truthy bn = true
      · rw [if_pos hbn] at h
        cases h
        exact add_preserved _ _ _ _ _ (str_append_ne_empty_left _ _
          (str_append_ne_empty_left _ _ (str_append_ne_empty_left _ _ (by decide))))
      · rw [if_neg hbn] at h
        cases h
        exact preserved_refl _
  · rw [if_neg hb] at h
    cases h
    exact preserved_refl _

theorem process_lineIntersectAxis_any_preserved (e : Elem) (oid onm : Val) (reg r : Registry)
    (h : process_lineIntersectAxis_point e oid onm reg = some r) :
    nonempty_names_preserved reg r := by
  unfold process_lineIntersectAxis_point at h
  by_cases hb : truthy (elemAttr e "basePoint") = true
  · rw [if_pos hb] at h
    cases hl : lookup_name_by_id (elemAttr e "basePoint") reg with
    | none => rw [hl] at h; cases h
    | some tn =>
      obtain ⟨t, bn⟩ := tn
      rw [hl] at h
      simp only [] at h
      by_cases hbn : truthy bn = true
      · rw [if_pos hbn] at h
        cases h
        exact add_preserved _ _ _ _ _ (str_append_ne_empty_left _ _
          (str_append_ne_empty_left _ _ (str_append_ne_empty_left _ _ (by decide))))
      · rw [if_neg hbn] at h
        cases h
        exact preserved_refl _
  · rw [if_neg hb] at h
    cases h
    exact preserved_refl _

theorem intersect_with_stem_any_preserved (e : Elem) (oid onm : Val) (reg r : Registry)
    (stem : String) (h : intersect_with_stem e oid onm reg stem = some r) :
    nonempty_names_preserved reg r := by
  unfold intersect_with_stem at h
  by_cases hb : (truthy (elemAttr e "firstPoint") && truthy (elemAttr e "secondPoint")) = true
  · rw [if_pos hb] at h
    cases hl1 : lookup_name_by_id (elemAttr e "firstPoint") reg with
    | none => rw [hl1] at h; cases h
    | some tn1 =>
      cases hl2 : lookup_name_by_id (elemAttr e "secondPoint") reg with
      | none => rw [hl1, hl2] at h; cases h
      | some tn2 =>
        obtain ⟨t1, n1⟩ := tn1
        obtain ⟨t2, n2⟩ := tn2
        rw [hl1, hl2] at h
        simp only [] at h
        by_cases hn : (truthy n1 && truthy n2) = true
        · rw [if_pos hn] at h
          cases h
          refine preserved_trans (add_preserved _ _ _ _ _ ?_) (add_preserved _ _ _ _ _ ?_)
          all_goals
            exact str_append_ne_empty_left _ _
              (str_append_ne_empty_left _ _ (str_append_ne_empty_left _ _ (by decide)))
        · rw [if_neg hn] at h
          cases h
          exact preserved_refl _
  · rw [if_neg hb] at h
    cases h
    exact preserved_refl _

theorem process_intersectXY_any_preserved (e : Elem) (oid onm : Val) (reg r : Registry)
    (h : process_intersectXY_alongLinepoint e oid onm reg = some r) :
    nonempty_names_preserved reg r := by
  unfold process_intersectXY_alongLinepoint at h
  by_cases h1 : elemAttr e "type" = some "intersectXY"
  · rw [if_pos h1] at h
    exact intersect_with_stem_any_preserved _ _ _ _ _ _ h
  · rw [if_neg h1] at h
    by_cases h2 : elemAttr e "type" = some "alongLine"
    · rw [if_pos h2] at h
      exact intersect_with_stem_any_preserved _ _ _ _ _ _ h
    · rw [if_neg h2] at h
      cases h

theorem point_synthesis_any_preserved (e : Elem) (oid onm : Val) (reg r : Registry)
    (h : point_synthesis e oid onm reg = some r) :
    nonempty_names_preserved reg r := by
  unfold point_synthesis at h
  split at h
  · exact process_intersectXY_any_preserved _ _ _ _ _ h
  · split at h
    · exact process_endLine_any_preserved _ _ _ _ _ h
    · split at h
      · exact process_lineIntersectAxis_any_preserved _ _ _ _ _ h
      · cases h
        exact preserved_refl _

theorem categorize_line_preserved (e : Elem) (reg : Registry) :
    nonempty_names_preserved reg (categorize_line e reg) := by
  simp only [categorize_line]
  apply add_preserved
  repeat' split
  all_goals
    first
      | (apply str_append_ne_empty_left
         apply str_append_ne_empty_left
         apply str_append_ne_empty_left
         decide)
      | (apply str_append_ne_empty_left
         decide)

theorem categorize_point_preserved (e : Elem) (reg r : Registry)
    (hname : elemAttr e "name" ≠ some "")
    (h : categorize_point e reg = some r) :
    nonempty_names_preserved reg r := by
  cases hn : elemAttr e "name" with
  | none =>
    rw [categorize_point] at h
    rw [hn] at h
    simp only [] at h
    refine preserved_trans ?_ (point_synthesis_any_preserved _ _ _ _ _ h)
    exact add_preserved _ _ _ _ _ (str_append_ne_empty_left _ _ (by decide))
  | some n =>
    rw [categorize_point] at h
    rw [hn] at h
    simp only [] at h
    have hne : n ≠ "" := fun hc => hname (hn.trans (by rw [hc]))
    refine preserved_trans ?_ (point_synthesis_any_preserved _ _ _ _ _ h)
    exact add_preserved _ _ _ _ _ hne

theorem categorize_variable_preserved (e : Elem) (v : Int) (reg : Registry)
    (p : Int × Registry) (hname : elemAttr e "name" ≠ some "")
    (h : categorize_variable e v reg = some p) :
    nonempty_names_preserved reg p.2 := by
  rw [categorize_variable] at h
  cases hn : elemAttr e "name" with
  | none =>
    rw [hn] at h
    simp at h
  | some n =>
    rw [hn] at h
    simp only [] at h
    by_cases hsk : pyTake2 n = "#_" ∨ pyTake2 n = "##"
    · rw [if_pos hsk] at h
      cases h
      exact preserved_refl _
    · rw [if_neg hsk] at h
      cases h
      exact add_preserved _ _ _ _ _ (fun hc => hname (hn.trans (by rw [hc])))

theorem categorize_draftBlock_preserved (e : Elem) (b : Nat) (reg : Registry) :
    nonempty_names_preserved reg (categorize_draftBlock e b reg).2 := by
  simp only [categorize_draftBlock]
  apply add_preserved
  split
  · exact truthy_pyStr_ne _ (by assumption)
  · exact str_append_ne_empty_left _ _ (by decide)

theorem categorize_measurement_preserved (e : Elem) (m : Nat) (reg : Registry) :
    nonempty_names_preserved reg (categorize_measurement e m reg).2 := by
  simp only [categorize_measurement]
  apply add_preserved
  split
  · exact truthy_pyStr_ne _ (by assumption)
  · exact str_append_ne_empty_left _ _ (by decide)

theorem categorize_arc_preserved (e : Elem) (reg : Registry) :
    nonempty_names_preserved reg (categorize_arc e reg) := by
  simp only [categorize_arc]
  apply add_preserved
  split
  · exact truthy_pyStr_ne _ (by assumption)
  · split
    · exact str_append_ne_empty_left _ _ (str_append_ne_empty_left _ _
        (str_append_ne_empty_left _ _ (str_append_ne_empty_left _ _
          (str_append_ne_empty_left _ _ (str_append_ne_empty_left _ _
            (str_append_ne_empty_left _ _ (by decide)))))))
    · exact str_append_ne_empty_left _ _ (str_append_ne_empty_left _ _
        (str_append_ne_empty_left _ _ (by decide)))

theorem categorize_spline_preserved (e : Elem) (reg r : Registry)
    (h : categorize_spline e reg = some r) :
    nonempty_names_preserved reg r := by
  rw [categorize_spline] at h
  cases hh : (spline_point_names e reg).head? with
  | none =>
    rw [hh] at h
    simp at h
  | some first =>
    cases hl : (spline_point_names e reg).getLast? with
    | none =>
      rw [hh, hl] at h
      simp at h
    | some last =>
      rw [hh, hl] at h
      simp only [] at h
      cases h
      apply add_preserved
      apply str_append_ne_empty_left
      apply str_append_ne_empty_left
      apply str_append_ne_empty_left
      split
      · decide
      · decide

theorem process_dest_items_any_preserved (st : List String) (sn : List Val)
    (sfx oid : Val) (items : List Elem) (i : Nat) (reg r : Registry)
    (hs : pyStr sfx ≠ "")
    (h : process_dest_items st sn sfx oid items i reg = some r) :
    nonempty_names_preserved reg r := by
  induction items generalizing i reg with
  | nil =>
    rw [process_dest_items] at h
    cases h
    exact preserved_refl _
  | cons item rest ih =>
    rw [process_dest_items] at h
    cases ht : st[i]? with
    | none =>
      rw [ht] at h
      simp at h
    | some dt =>
      cases hnm : sn[i]? with
      | none =>
        rw [ht, hnm] at h
        simp at h
      | some snm =>
        rw [ht, hnm] at h
        simp only [] at h
        refine preserved_trans ?_ (ih _ _ h)
        apply add_preserved
        simp only [dest_name_of]
        exact str_append_ne_empty_right _ _ hs

theorem process_dest_lists_any_preserved (st : List String) (sn : List Val)
    (sfx oid : Val) (dests : List Elem) (reg r : Registry)
    (hs : pyStr sfx ≠ "")
    (h : process_dest_lists st sn sfx oid dests reg = some r) :
    nonempty_names_preserved reg r := by
  induction dests generalizing reg with
  | nil =>
    rw [process_dest_lists] at h
    cases h
    exact preserved_refl _
  | cons d rest ih =>
    rw [process_dest_lists] at h
    cases hd : process_dest_items st sn sfx oid (d.children.filter (fun c => c.tag = "item")) 0 reg with
    | none =>
      rw [hd] at h
      simp at h
    | some reg2 =>
      rw [hd] at h
      simp only [] at h
      exact preserved_trans (process_dest_items_any_preserved _ _ _ _ _ _ _ _ hs hd) (ih _ h)

theorem categorize_operation_any_preserved (e : Elem) (reg r : Registry) (suf : String)
    (hsuf : elemAttr e "suffix" = some suf) (hne : suf ≠ "")
    (h : categorize_operation e reg = some r) :
    nonempty_names_preserved reg r := by
  rw [categorize_operation] at h
  have hpre : nonempty_names_preserved reg (op_self_reg e reg) := by
    rw [op_self_reg]
    simp only [hsuf]
    exact add_preserved _ _ _ _ _ hne
  cases hl : lookupSourceItems (op_src_items e) (op_self_reg e reg) with
  | none =>
    rw [hl] at h
    simp at h
  | some pairs =>
    rw [hl] at h
    simp only [] at h
    refine preserved_trans hpre
      (process_dest_lists_any_preserved _ _ _ _ _ _ _ ?_ h)
    rw [hsuf]
    simpa [pyStr] using hne

theorem categorize_step_preserves (e : Elem) (st st' : WalkState)
    (hok : elem_ok e = true) (h : categorize_step e st = some st') :
    nonempty_names_preserved st.reg st'.reg := by
  rw [elem_ok] at hok
  have hok1 := (bool_and_left hok)
  have hok2 := (bool_and_right hok)
  have hname : elemAttr e "name" ≠ some "" := by
    intro hc
    rw [hc] at hok1
    simp at hok1
  rw [categorize_step] at h
  by_cases h1 : e.tag = "line"
  · rw [if_pos h1] at h
    cases h
    exact categorize_line_preserved e st.reg
  · rw [if_neg h1] at h
    by_cases h2 : e.tag = "point"
    · rw [if_pos h2] at h
      cases hp : categorize_point e st.reg with
      | none => rw [hp] at h; simp at h
      | some r =>
        rw [hp] at h
        simp only [Option.map_some'] at h
        cases h
        exact categorize_point_preserved e st.reg r hname hp
    · rw [if_neg h2] at h
      by_cases h3 : e.tag = "variable"
      · rw [if_pos h3] at h
        cases hv : categorize_variable e st.var_ctr st.reg with
        | none => rw [hv] at h; simp at h
        | some p =>
          rw [hv] at h
          simp only [Option.map_some'] at h
          cases h
          exact categorize_variable_preserved e st.var_ctr st.reg p hname hv
      · rw [if_neg h3] at h
        by_cases h4 : e.tag = "draftBlock"
        · rw [if_pos h4] at h
          simp only [] at h
          cases h
          exact categorize_draftBlock_preserved e st.block_ctr st.reg
        · rw [if_neg h4] at h
          by_cases h5 : e.tag = "m"
          · rw [if_pos h5] at h
            simp only [] at h
            cases h
            exact categorize_measurement_preserved e st.meas_ctr st.reg
          · rw [if_neg h5] at h
            by_cases h6 : e.tag = "arc" ∨ e.tag = "elArc"
            · rw [if_pos h6] at h
              cases h
              exact categorize_arc_preserved e st.reg
            · rw [if_neg h6] at h
              by_cases h7 : e.tag = "spline"
              · rw [if_pos h7] at h
                cases hsp : categorize_spline e st.reg with
                | none => rw [hsp] at h; simp at h
                | some r =>
                  rw [hsp] at h
                  simp only [Option.map_some'] at h
                  cases h
                  exact categorize_spline_preserved e st.reg r hsp
              · rw [if_neg h7] at h
                by_cases h8 : e.tag = "operation"
                · rw [if_pos h8] at h
                  rw [if_pos h8] at hok2
                  obtain ⟨suf, hsuf, hsne⟩ :
                      ∃ suf, elemAttr e "suffix" = some suf ∧ suf ≠ "" := by
                    cases hsx : elemAttr e "suffix" with
                    | none => rw [hsx] at hok2; simp at hok2
                    | some suf =>
                      rw [hsx] at hok2
                      simp at hok2
                      exact ⟨suf, rfl, hok2⟩
                  cases ho : categorize_operation e st.reg with
                  | none => rw [ho] at h; simp at h
                  | some r =>
                    rw [ho] at h
                    simp only [Option.map_some'] at h
                    cases h
                    exact categorize_operation_any_preserved e st.reg r suf hsuf hsne ho
                · rw [if_neg h8] at h
                  by_cases h9 : e.tag ∈ parent_tags
                  · rw [if_pos h9] at h
                    cases h
                    exact preserved_refl _
                  · rw [if_neg h9] at h
                    cases h

mutual

theorem categorize_elements_preserves (e : Elem) (st st' : WalkState)
    (hok : tree_ok e = true) (h : categorize_elements e st = some st') :
    nonempty_names_preserved st.reg st'.reg := by
  obtain ⟨tag, attrs, children⟩ := e
  rw [tree_ok] at hok
  have hek := (bool_and_left hok)
  have hck := (bool_and_right hok)
  rw [categorize_elements] at h
  by_cases hskip : tag ∈ skip_tags
  · rw [if_pos hskip] at h
    cases h
    exact preserved_refl _
  · rw [if_neg hskip] at h
    cases hcs : categorize_step (Elem.mk tag attrs children) st with
    | none => rw [hcs] at h; simp at h
    | some st1 =>
      rw [hcs] at h
      simp only [] at h
      have hp1 := categorize_step_preserves _ _ _ hek hcs
      by_cases hop : tag = "operation"
      · rw [if_pos hop] at h
        cases h
        exact hp1
      · rw [if_neg hop] at h
        exact preserved_trans hp1 (walk_children_preserves children st1 st' hck h)

theorem walk_children_preserves (cs : List Elem) (st st' : WalkState)
    (hok : children_ok cs = true) (h : walk_children cs st = some st') :
    nonempty_names_preserved st.reg st'.reg := by
  cases cs with
  | nil =>
    rw [walk_children] at h
    cases h
    exact preserved_refl _
  | cons c rest =>
    rw [children_ok] at hok
    rw [walk_children] at h
    cases hc : categorize_elements c st with
    | none => rw [hc] at h; simp at h
    | some st1 =>
      rw [hc] at h
      simp only [] at h
      exact preserved_trans
        (categorize_elements_preserves c st st1 (bool_and_left hok) hc)
        (walk_children_preserves rest st1 st' (bool_and_right hok) h)

end

theorem all_names_nonempty_nil : all_names_nonempty [] := by
  intro tag id rc hrc
  simp [regGet, getTagMap, dictGet] at hrc

theorem all_names_nonempty_of_preserved (a b : Registry)
    (hp : nonempty_names_preserved a b) (ha : all_names_nonempty a) :
    all_names_nonempty b := by
  intro tag id rc hrc
  rcases hp tag id with h | h
  · rw [h] at hrc
    exact ha tag id rc hrc
  · obtain ⟨s, hs, hns⟩ := h
    rw [registered_name, hrc] at hs
    simp only [Option.map_some'] at hs
    refine ⟨s, ?_, hns⟩
    exact Option.some.inj hs

/-- Claim C9, counterexample: a point element carrying an explicitly empty
name attribute (name="") is registered with the empty string as its record
name, so not every registry record has a non-empty name. -/
theorem registry_name_can_be_empty :
    ∃ r, categorize_point
        (Elem.mk "point" [("id", "5"), ("name", ""), ("type", "xyz")] []) [] = some r ∧
      registered_name r (some "point") (some "5") = some (some "") :=
  ⟨_, rfl, by decide⟩

/-- Claim C9, amended: after a completed walk of a whole document from the
initial state, every record in the Type Registry — of whatever tag: point,
line (explicit or implicit), variable, draftBlock, measurement, arc, spline,
operation or operation-expansion destination — carries a present, non-empty
name, provided every element whose explicit name attribute is present supplies
a non-empty one and every operation element carries a present, non-empty
suffix attribute (the `tree_ok` proviso). A point element carrying name=""
refutes the unconditional claim. -/
theorem registry_names_nonempty_after_walk (doc : Elem) (st' : WalkState)
    (hok : tree_ok doc = true)
    (hrun : categorize_elements doc initial_walk_state = some st') :
    all_names_nonempty st'.reg :=
  all_names_nonempty_of_preserved _ _
    (categorize_elements_preserves doc initial_walk_state st' hok hrun)
    all_names_nonempty_nil

/-- Witness for the walk theorem at a concrete document: the walk completes on
the demonstration document and every registered record carries a non-empty
name. -/
theorem registry_names_nonempty_after_walk_witness :
    tree_ok demo_document = true ∧
    categorize_elements demo_document initial_walk_state = some demo_final_state ∧
    all_names_nonempty demo_final_state.reg :=
  ⟨by decide, rfl,
    registry_names_nonempty_after_walk demo_document demo_final_state (by decide) rfl⟩

/-- Witness for the amended line-naming theorem at a concrete input: distinct
endpoint ids "1" and "2" resolving to points named "A" and "B" give a line
registered as "Line_A_B". -/
theorem line_naming_rule_witness :
    registered_name
      (categorize_line
        (Elem.mk "line" [("id", "8"), ("firstPoint", "1"), ("secondPoint", "2")] [])
        [(some "point",
          [(some "1", [("id", some "1"), ("name", some "A")]),
           (some "2", [("id", some "2"), ("name", some "B")])])])
      (some "line") (some "8") = some (some "Line_A_B") := by
  have h := line_naming_rule
    (Elem.mk "line" [("id", "8"), ("firstPoint", "1"), ("secondPoint", "2")] [])
    [(some "point",
      [(some "1", [("id", some "1"), ("name", some "A")]),
       (some "2", [("id", some "2"), ("name", some "B")])])]
    "8" "1" "2" "A" "B"
    [("id", some "1"), ("name", some "A")] [("id", some "2"), ("name", some "B")]
    rfl rfl rfl (by decide) rfl (by decide) (by decide) (by decide) (by decide)
    (by decide) (by decide) (by decide)
  simpa using h

